import Mathlib

/-!
Verification of the researchfeed-website repository (app.py, builder.py,
generate_static_html.py, process_papers.py).

Texts are modelled as `List Char`.  Python values that can appear in an
assembled paper record are modelled by the mutual inductive `PyVal`
(Python floats are modelled as exact decimals `m / 10 ^ e`, so no binary
floating point enters the development).  SQLite column values are
modelled by `DbVal` (NULL / INTEGER / REAL / TEXT); the three
JSON-bearing columns and the date column, which the code treats as
strings, are modelled as `Option (List Char)` (NULL or TEXT).
-/

/-- Characters of a string literal, the text representation used throughout. -/
def toL (s : String) : List Char := s.data

/-- Left brace character (kept out of string literals). -/
def lbrace : Char := Char.ofNat 123

/-- Right brace character (kept out of string literals). -/
def rbrace : Char := Char.ofNat 125

/-- Decimal digit test, as for the regex class used by the code. -/
def isDig (c : Char) : Bool := 48 ≤ c.toNat && c.toNat ≤ 57

/-- The character of a single decimal digit. -/
def digChar (d : Nat) : Char := Char.ofNat (48 + d)

/-- Numeric value of a digit character. -/
def digVal (c : Char) : Nat := c.toNat - 48

/-- Decimal digits of a natural number, most significant first (fuelled). -/
def natDigitsAux : Nat → Nat → List Char
  | 0, _ => []
  | fuel + 1, n => if n < 10 then [digChar n] else natDigitsAux fuel (n / 10) ++ [digChar (n % 10)]

/-- Decimal digits of a natural number, most significant first. -/
def natDigits (n : Nat) : List Char := natDigitsAux (n + 1) n

/-- Value of a digit string (digits most significant first). -/
def digitsToNat (ds : List Char) : Nat := ds.foldl (fun a c => a * 10 + digVal c) 0

/-- Decimal representation of an integer, as Python `repr` prints it. -/
def intRepr (n : Int) : List Char :=
  if n < 0 then '-' :: natDigits n.natAbs else natDigits n.natAbs

/-- Python `str.startswith` on character lists. -/
def lstartsWith : List Char → List Char → Bool
  | [], _ => true
  | _ :: _, [] => false
  | p :: ps, c :: cs => p == c && lstartsWith ps cs

/-- Whether `pat` occurs as a contiguous substring of `s` (`pat in s` in Python). -/
def occurs (pat : List Char) : List Char → Bool
  | [] => lstartsWith pat []
  | c :: cs => lstartsWith pat (c :: cs) || occurs pat cs

/-- One fuelled step list for Python `str.replace(old, new)` (replace all
non-overlapping occurrences, scanning left to right). -/
def pyReplaceAux (old new : List Char) : Nat → List Char → List Char
  | 0, s => s
  | fuel + 1, s =>
    match s with
    | [] => []
    | c :: cs =>
      if lstartsWith old s then new ++ pyReplaceAux old new fuel (s.drop old.length)
      else c :: pyReplaceAux old new fuel cs

/-- Python `str.replace(old, new)` for a non-empty `old` (the code never
replaces an empty pattern). -/
def pyReplace (s old new : List Char) : List Char :=
  if old = [] then s else pyReplaceAux old new s.length s

theorem lstartsWith_nil_false (p : Char) (ps : List Char) :
    lstartsWith (p :: ps) [] = false := rfl

/-- A pattern that does not occur is left alone by one replacement pass. -/
theorem pyReplaceAux_of_not_occurs (old new : List Char) :
    ∀ fuel s, occurs old s = false → pyReplaceAux old new fuel s = s := by
  intro fuel
  induction fuel with
  | zero => intro s _; rfl
  | succ fuel ih =>
    intro s h
    match s with
    | [] => rfl
    | c :: cs =>
      have h' : (lstartsWith old (c :: cs) || occurs old cs) = false := h
      have h1 : lstartsWith old (c :: cs) = false := by
        cases hb : lstartsWith old (c :: cs) <;> simp [hb] at h' ⊢
      have h2 : occurs old cs = false := by
        cases hb : occurs old cs <;> simp [hb] at h' ⊢
      simp only [pyReplaceAux, h1, Bool.false_eq_true, if_false]
      exact congrArg (c :: ·) (ih cs h2)

/-- Python `replace` is the identity when the pattern does not occur. -/
theorem pyReplace_of_not_occurs (s old new : List Char) (h : occurs old s = false) :
    pyReplace s old new = s := by
  unfold pyReplace
  by_cases he : old = []
  · simp [he]
  · simp only [he, if_false]
    exact pyReplaceAux_of_not_occurs old new s.length s h

theorem digVal_digChar (d : Nat) (h : d < 10) : digVal (digChar d) = d := by
  interval_cases d <;> decide

theorem isDig_digChar (d : Nat) (h : d < 10) : isDig (digChar d) = true := by
  interval_cases d <;> decide

/-- Folding the digit-accumulator from an arbitrary start. -/
theorem digitsToNat_from (ds : List Char) :
    ∀ a : Nat, ds.foldl (fun a c => a * 10 + digVal c) a
      = a * 10 ^ ds.length + digitsToNat ds := by
  induction ds with
  | nil => intro a; simp [digitsToNat]
  | cons c cs ih =>
    intro a
    have h1 := ih (a * 10 + digVal c)
    have h2 := ih (digVal c)
    simp only [List.foldl_cons] at *
    have : digitsToNat (c :: cs) = digVal c * 10 ^ cs.length + digitsToNat cs := by
      simp only [digitsToNat, List.foldl_cons]
      have := ih (0 * 10 + digVal c)
      simpa using this
    rw [h1, this]
    ring_nf
    simp [List.length_cons, pow_succ]
    ring

theorem digitsToNat_append (xs ys : List Char) :
    digitsToNat (xs ++ ys) = digitsToNat xs * 10 ^ ys.length + digitsToNat ys := by
  simp only [digitsToNat, List.foldl_append]
  have := digitsToNat_from ys (List.foldl (fun a c => a * 10 + digVal c) 0 xs)
  simpa [digitsToNat] using this

theorem natDigitsAux_spec :
    ∀ fuel n, n < fuel →
      natDigitsAux fuel n ≠ [] ∧ (∀ c ∈ natDigitsAux fuel n, isDig c = true) ∧
        digitsToNat (natDigitsAux fuel n) = n := by
  intro fuel
  induction fuel with
  | zero => intro n h; omega
  | succ fuel ih =>
    intro n h
    by_cases h10 : n < 10
    · refine ⟨by simp [natDigitsAux, h10], ?_, ?_⟩
      · intro c hc
        simp [natDigitsAux, h10] at hc
        subst hc; exact isDig_digChar n h10
      · simp [natDigitsAux, h10, digitsToNat, digVal_digChar n h10]
    · have hlt : n / 10 < fuel := by omega
      obtain ⟨hne, hdig, hval⟩ := ih (n / 10) hlt
      have hm : n % 10 < 10 := Nat.mod_lt _ (by omega)
      refine ⟨by simp [natDigitsAux, h10], ?_, ?_⟩
      · intro c hc
        simp only [natDigitsAux, h10, if_false] at hc
        rcases List.mem_append.mp hc with hc | hc
        · exact hdig c hc
        · simp at hc; subst hc; exact isDig_digChar _ hm
      · simp only [natDigitsAux, h10, if_false]
        rw [digitsToNat_append, hval]
        simp [digitsToNat, digVal_digChar _ hm]
        omega

theorem natDigits_ne_nil (n : Nat) : natDigits n ≠ [] :=
  (natDigitsAux_spec (n + 1) n (by omega)).1

theorem natDigits_all_dig (n : Nat) : ∀ c ∈ natDigits n, isDig c = true :=
  (natDigitsAux_spec (n + 1) n (by omega)).2.1

theorem digitsToNat_natDigits (n : Nat) : digitsToNat (natDigits n) = n :=
  (natDigitsAux_spec (n + 1) n (by omega)).2.2

theorem natDigitsAux_head :
    ∀ fuel n, n < fuel → n ≠ 0 →
      ∀ c cs, natDigitsAux fuel n = c :: cs → digVal c ≠ 0 ∧ isDig c = true := by
  intro fuel
  induction fuel with
  | zero => intro n h; omega
  | succ fuel ih =>
    intro n h hn c cs hcc
    by_cases h10 : n < 10
    · simp [natDigitsAux, h10] at hcc
      obtain ⟨hc, _⟩ := hcc
      subst hc
      exact ⟨by rw [digVal_digChar n h10]; exact hn, isDig_digChar n h10⟩
    · simp only [natDigitsAux, h10, if_false] at hcc
      have hlt : n / 10 < fuel := by omega
      have hne : n / 10 ≠ 0 := by omega
      obtain ⟨hne', _, _⟩ := natDigitsAux_spec fuel (n / 10) hlt
      match hrec : natDigitsAux fuel (n / 10) with
      | [] => exact absurd hrec hne'
      | d :: ds =>
        rw [hrec] at hcc
        simp at hcc
        obtain ⟨hc, _⟩ := hcc
        subst hc
        exact ih (n / 10) hlt hne d ds hrec

theorem natDigits_head (n : Nat) (hn : n ≠ 0) (c : Char) (cs : List Char)
    (h : natDigits n = c :: cs) : digVal c ≠ 0 ∧ isDig c = true :=
  natDigitsAux_head (n + 1) n (by omega) hn c cs h

/-- Maximal digit prefix of a character list. -/
def spanDigs (s : List Char) : List Char × List Char :=
  (s.takeWhile isDig, s.dropWhile isDig)

/-- Head of a list is not a digit (vacuously true for the empty list). -/
def headNotDig : List Char → Prop
  | [] => True
  | c :: _ => isDig c = false

theorem spanDigs_exact (ds : List Char) (hds : ∀ c ∈ ds, isDig c = true) :
    ∀ rest, headNotDig rest → spanDigs (ds ++ rest) = (ds, rest) := by
  induction ds with
  | nil =>
    intro rest hrest
    match rest with
    | [] => rfl
    | c :: cs =>
      simp only [headNotDig] at hrest
      simp [spanDigs, List.takeWhile, List.dropWhile, hrest]
  | cons c cs ih =>
    intro rest hrest
    have hc : isDig c = true := hds c (by simp)
    have h2 := ih (fun d hd => hds d (by simp [hd])) rest hrest
    simp only [spanDigs, Prod.mk.injEq] at h2 ⊢
    simp [List.takeWhile, List.dropWhile, hc, h2.1, h2.2]

mutual
/-- A Python value as it can appear in a paper record or JSON payload.
Floats are exact decimals: `float m e` denotes `m / 10 ^ e`. -/
inductive PyVal where
  | none : PyVal
  | bool (b : Bool) : PyVal
  | int (n : Int) : PyVal
  | float (m : Int) (e : Nat) : PyVal
  | str (s : List Char) : PyVal
  | list (xs : PyList) : PyVal
  | dict (xs : PyDict) : PyVal
  deriving DecidableEq

/-- A Python list of `PyVal`. -/
inductive PyList where
  | nil : PyList
  | cons (hd : PyVal) (tl : PyList) : PyList
  deriving DecidableEq

/-- A Python dict with string keys, in insertion order. -/
inductive PyDict where
  | nil : PyDict
  | cons (key : List Char) (val : PyVal) (tl : PyDict) : PyDict
  deriving DecidableEq
end

/-- Keys of a dict, in order. -/
def pyKeysD : PyDict → List (List Char)
  | .nil => []
  | .cons k _ tl => k :: pyKeysD tl

/-- Keys of a value when it is a dict (`list(d.keys())`). -/
def pyKeys : PyVal → List (List Char)
  | .dict d => pyKeysD d
  | _ => []

/-- Lookup of a key in a dict (first match). -/
def dictLookup (k : List Char) : PyDict → Option PyVal
  | .nil => Option.none
  | .cons k' v tl => if k' = k then some v else dictLookup k tl

/-- Python `d[k]` on a dict value. -/
def pyGet (v : PyVal) (k : List Char) : Option PyVal :=
  match v with
  | .dict d => dictLookup k d
  | _ => Option.none

/-- Python `d.get(k, default)`. -/
def dictGetD (d : PyDict) (k : List Char) (dflt : PyVal) : PyVal :=
  match dictLookup k d with
  | some v => v
  | Option.none => dflt

/-- Map a function over a Python list. -/
def PyList.map (f : PyVal → PyVal) : PyList → PyList
  | .nil => .nil
  | .cons v tl => .cons (f v) (PyList.map f tl)

/-- Canonical form of a decimal float, as Python would print it:
strip trailing zero decimals. -/
def canonFloat : Int → Nat → Int × Nat
  | m, 0 => (m, 0)
  | m, e + 1 => if m % 10 = 0 then canonFloat (m / 10) e else (m, e + 1)

/-- A decimal float is canonical when it cannot be reduced. -/
def floatCanon (m : Int) (e : Nat) : Bool := e == 0 || decide (m % 10 ≠ 0)

mutual
/-- All floats inside the value are canonical decimals. -/
def canonV : PyVal → Bool
  | .float m e => floatCanon m e
  | .list xs => canonL xs
  | .dict xs => canonD xs
  | _ => true
def canonL : PyList → Bool
  | .nil => true
  | .cons v tl => canonV v && canonL tl
def canonD : PyDict → Bool
  | .nil => true
  | .cons _ v tl => canonV v && canonD tl
end

/-- Newline plus `indent=2` indentation at a nesting level. -/
def nlIndent (lvl : Nat) : List Char := '\n' :: List.replicate (2 * lvl) ' '

/-- Lower-case hex digit character. -/
def hexChar (d : Nat) : Char := if d < 10 then digChar d else Char.ofNat (87 + d)

/-- JSON escape of one character, as `json.dumps(..., ensure_ascii=False)`
produces it: escape the quote, the backslash, and control characters. -/
def encodeChar (c : Char) : List Char :=
  if c = '"' then ['\\', '"']
  else if c = '\\' then ['\\', '\\']
  else if c.toNat < 32 then
    if c.toNat = 8 then ['\\', 'b']
    else if c.toNat = 9 then ['\\', 't']
    else if c.toNat = 10 then ['\\', 'n']
    else if c.toNat = 12 then ['\\', 'f']
    else if c.toNat = 13 then ['\\', 'r']
    else ['\\', 'u', '0', '0', hexChar (c.toNat / 16), hexChar (c.toNat % 16)]
  else [c]

/-- JSON escape of a string body. -/
def encodeStrBody : List Char → List Char
  | [] => []
  | c :: cs => encodeChar c ++ encodeStrBody cs

/-- Left-pad a digit string with zeros to a given length. -/
def padLeft (ds : List Char) (n : Nat) : List Char :=
  List.replicate (n - ds.length) '0' ++ ds

/-- Decimal text of the float `m / 10 ^ e`, as Python `repr` prints a float
(no exponent notation in this model). -/
def floatRepr (m : Int) (e : Nat) : List Char :=
  let sign : List Char := if m < 0 then ['-'] else []
  let ds := natDigits m.natAbs
  if e = 0 then sign ++ ds ++ toL ".0"
  else
    let ds' := padLeft ds (e + 1)
    sign ++ ds'.take (ds'.length - e) ++ '.' :: ds'.drop (ds'.length - e)

mutual
/-- Model of `json.dumps(data, ensure_ascii=False, indent=2)` at a nesting
level, on the exact value model (no exponent notation, no NaN). -/
def dumps : PyVal → Nat → List Char
  | .none, _ => toL "null"
  | .bool true, _ => toL "true"
  | .bool false, _ => toL "false"
  | .int n, _ => intRepr n
  | .float m e, _ => floatRepr m e
  | .str s, _ => '"' :: encodeStrBody s ++ ['"']
  | .list .nil, _ => toL "[]"
  | .list (.cons v tl), lvl =>
      '[' :: (nlIndent (lvl + 1) ++ dumps v (lvl + 1) ++ dumpsElems tl (lvl + 1)
        ++ nlIndent lvl ++ [']'])
  | .dict .nil, _ => [lbrace, rbrace]
  | .dict (.cons k v tl), lvl =>
      lbrace :: (nlIndent (lvl + 1) ++ ('"' :: encodeStrBody k ++ ['"'])
        ++ ':' :: ' ' :: dumps v (lvl + 1) ++ dumpsEntries tl (lvl + 1)
        ++ nlIndent lvl ++ [rbrace])
def dumpsElems : PyList → Nat → List Char
  | .nil, _ => []
  | .cons v tl, lvl => ',' :: nlIndent lvl ++ dumps v lvl ++ dumpsElems tl lvl
def dumpsEntries : PyDict → Nat → List Char
  | .nil, _ => []
  | .cons k v tl, lvl =>
      ',' :: nlIndent lvl ++ ('"' :: encodeStrBody k ++ ['"'])
        ++ ':' :: ' ' :: dumps v lvl ++ dumpsEntries tl lvl
end

/-- JSON whitespace test. -/
def isWs (c : Char) : Bool := c = ' ' || c = '\n' || c = '\t' || c = '\r'

/-- Skip JSON whitespace. -/
def skipWs : List Char → List Char
  | [] => []
  | c :: cs => if isWs c then skipWs cs else c :: cs

/-- Value of a hex digit character (both cases), if any. -/
def hexVal (c : Char) : Option Nat :=
  if isDig c then some (digVal c)
  else if 97 ≤ c.toNat && c.toNat ≤ 102 then some (c.toNat - 87)
  else if 65 ≤ c.toNat && c.toNat ≤ 70 then some (c.toNat - 55)
  else none

/-- The character named by a JSON short escape. -/
def escChar (k : Char) : Option Char :=
  if k = '"' then some '"'
  else if k = '\\' then some '\\'
  else if k = '/' then some '/'
  else if k = 'b' then some (Char.ofNat 8)
  else if k = 'f' then some (Char.ofNat 12)
  else if k = 'n' then some '\n'
  else if k = 'r' then some (Char.ofNat 13)
  else if k = 't' then some '\t'
  else none

/-- Strict JSON string-body scanner (after the opening quote): unescaped
control characters are rejected, escapes are limited to the JSON table. -/
def parseStrBody : List Char → Option (List Char × List Char)
  | [] => Option.none
  | c :: r =>
    if c = '"' then some ([], r)
    else if c = '\\' then
      match r with
      | [] => Option.none
      | k :: r2 =>
        if k = 'u' then
          match r2 with
          | h1 :: h2 :: h3 :: h4 :: r3 =>
            match hexVal h1, hexVal h2, hexVal h3, hexVal h4 with
            | some a, some b, some cc, some d =>
              (parseStrBody r3).map
                (fun p => (Char.ofNat (((a * 16 + b) * 16 + cc) * 16 + d) :: p.1, p.2))
            | _, _, _, _ => Option.none
          | _ => Option.none
        else
          match escChar k with
          | some c2 => (parseStrBody r2).map (fun p => (c2 :: p.1, p.2))
          | Option.none => Option.none
    else if c.toNat < 32 then Option.none
    else (parseStrBody r).map (fun p => (c :: p.1, p.2))

/-- Strict JSON number scanner, after an optional leading minus sign
(exponent notation is outside this model). -/
def parseNum (neg : Bool) (s : List Char) : Option (PyVal × List Char) :=
  let ds := (spanDigs s).1
  let r := (spanDigs s).2
  if ds = [] then Option.none
  else if ds.head? = some '0' ∧ ds ≠ ['0'] then Option.none
  else
    let iv : Int := if neg then -(digitsToNat ds : Int) else (digitsToNat ds : Int)
    match r with
    | c2 :: r2 =>
      if c2 = '.' then
        let fs := (spanDigs r2).1
        let r3 := (spanDigs r2).2
        if fs = [] then Option.none
        else
          let mAbs := digitsToNat (ds ++ fs)
          let m : Int := if neg then -(mAbs : Int) else (mAbs : Int)
          some (.float (canonFloat m fs.length).1 (canonFloat m fs.length).2, r3)
      else some (.int iv, c2 :: r2)
    | [] => some (.int iv, [])

mutual
/-- Fuelled recursive-descent JSON value scanner (model of `json.loads`
with strict decoding). -/
def parseVal : Nat → List Char → Option (PyVal × List Char)
  | 0, _ => Option.none
  | fuel + 1, s =>
    match skipWs s with
    | [] => Option.none
    | c :: r =>
      if c = 'n' then
        match r with
        | 'u' :: 'l' :: 'l' :: r2 => some (.none, r2)
        | _ => Option.none
      else if c = 't' then
        match r with
        | 'r' :: 'u' :: 'e' :: r2 => some (.bool true, r2)
        | _ => Option.none
      else if c = 'f' then
        match r with
        | 'a' :: 'l' :: 's' :: 'e' :: r2 => some (.bool false, r2)
        | _ => Option.none
      else if c = '"' then (parseStrBody r).map (fun p => (.str p.1, p.2))
      else if c = '[' then parseArr fuel r
      else if c = lbrace then parseObj fuel r
      else if c = '-' then parseNum true r
      else if isDig c then parseNum false (c :: r)
      else Option.none
def parseArr : Nat → List Char → Option (PyVal × List Char)
  | 0, _ => Option.none
  | fuel + 1, r =>
    match skipWs r with
    | c :: u =>
      if c = ']' then some (.list .nil, u)
      else (parseElems fuel (c :: u)).map (fun p => (.list p.1, p.2))
    | [] => Option.none
def parseElems : Nat → List Char → Option (PyList × List Char)
  | 0, _ => Option.none
  | fuel + 1, s =>
    match parseVal fuel s with
    | Option.none => Option.none
    | some (v, r) =>
      match skipWs r with
      | c :: u =>
        if c = ']' then some (.cons v .nil, u)
        else if c = ',' then
          match parseElems fuel u with
          | some (tl, u2) => some (.cons v tl, u2)
          | Option.none => Option.none
        else Option.none
      | [] => Option.none
def parseObj : Nat → List Char → Option (PyVal × List Char)
  | 0, _ => Option.none
  | fuel + 1, r =>
    match skipWs r with
    | c :: u =>
      if c = rbrace then some (.dict .nil, u)
      else (parseEntries fuel (c :: u)).map (fun p => (.dict p.1, p.2))
    | [] => Option.none
def parseEntries : Nat → List Char → Option (PyDict × List Char)
  | 0, _ => Option.none
  | fuel + 1, s =>
    match skipWs s with
    | [] => Option.none
    | c0 :: kr =>
      if c0 = '"' then
        match parseStrBody kr with
        | Option.none => Option.none
        | some (k, r2) =>
          match skipWs r2 with
          | c1 :: r3 =>
            if c1 = ':' then
              match parseVal fuel r3 with
              | Option.none => Option.none
              | some (v, r4) =>
                match skipWs r4 with
                | c :: u =>
                  if c = rbrace then some (.cons k v .nil, u)
                  else if c = ',' then
                    match parseEntries fuel u with
                    | some (tl, u2) => some (.cons k v tl, u2)
                    | Option.none => Option.none
                  else Option.none
                | [] => Option.none
            else Option.none
          | [] => Option.none
      else Option.none
end

/-- Model of strict `json.loads`: scan one value, allow only trailing
whitespace. -/
def jsonLoads (s : List Char) : Option PyVal :=
  match parseVal (s.length + 1) s with
  | some (v, rest) => if skipWs rest = [] then some v else Option.none
  | Option.none => Option.none

mutual
/-- Fuel needed by the scanner for a value printed by `dumps`. -/
def pyFuel : PyVal → Nat
  | .list xs => pyFuelL xs + 2
  | .dict xs => pyFuelD xs + 2
  | _ => 1
def pyFuelL : PyList → Nat
  | .nil => 0
  | .cons v tl => pyFuel v + pyFuelL tl + 1
def pyFuelD : PyDict → Nat
  | .nil => 0
  | .cons _ v tl => pyFuel v + pyFuelD tl + 1
end

/-- The remainder after a scanned number must not extend the numeral. -/
def numStop : List Char → Prop
  | [] => True
  | c :: _ => isDig c = false ∧ c ≠ '.'

/-- Characters that can start the `dumps` output of a value. -/
def goodHead (c : Char) : Prop :=
  c = 'n' ∨ c = 't' ∨ c = 'f' ∨ c = '"' ∨ c = '[' ∨ c = lbrace ∨ c = '-' ∨ isDig c = true

theorem skipWs_cons_not_ws (c : Char) (r : List Char) (h : isWs c = false) :
    skipWs (c :: r) = c :: r := by simp [skipWs, h]

theorem skipWs_sp (t : List Char) : skipWs (' ' :: t) = skipWs t := by
  simp [skipWs, isWs]

theorem skipWs_replicate_sp : ∀ n t, skipWs (List.replicate n ' ' ++ t) = skipWs t := by
  intro n
  induction n with
  | zero => intro t; rfl
  | succ n ih => intro t; simp only [List.replicate_succ, List.cons_append, skipWs_sp]; exact ih t

theorem skipWs_nlIndent (lvl : Nat) (t : List Char) :
    skipWs (nlIndent lvl ++ t) = skipWs t := by
  simp only [nlIndent, List.cons_append]
  rw [show skipWs ('\n' :: (List.replicate (2 * lvl) ' ' ++ t))
      = skipWs (List.replicate (2 * lvl) ' ' ++ t) by simp [skipWs, isWs]]
  exact skipWs_replicate_sp _ t

theorem isDig_not_ws (c : Char) (h : isDig c = true) : isWs c = false := by
  have h1 : c ≠ ' ' := fun he => absurd h (by subst he; decide)
  have h2 : c ≠ '\n' := fun he => absurd h (by subst he; decide)
  have h3 : c ≠ '\t' := fun he => absurd h (by subst he; decide)
  have h4 : c ≠ '\r' := fun he => absurd h (by subst he; decide)
  simp [isWs, h1, h2, h3, h4]

theorem goodHead_not_ws (c : Char) (h : goodHead c) : isWs c = false := by
  rcases h with h | h | h | h | h | h | h | h
  all_goals first
    | (subst h; decide)
    | (exact isDig_not_ws c h)

theorem isDig_props (c : Char) (h : isDig c = true) :
    c ≠ ']' ∧ c ≠ ',' ∧ c ≠ rbrace ∧ c ≠ ':' ∧ c ≠ 'n' ∧ c ≠ 't' ∧ c ≠ 'f' ∧
      c ≠ '"' ∧ c ≠ '[' ∧ c ≠ lbrace ∧ c ≠ '-' := by
  refine ⟨?_, ?_, ?_, ?_, ?_, ?_, ?_, ?_, ?_, ?_, ?_⟩
  all_goals exact fun he => absurd h (by subst he; decide)

theorem goodHead_not_close (c : Char) (h : goodHead c) :
    c ≠ ']' ∧ c ≠ rbrace := by
  rcases h with h | h | h | h | h | h | h | h
  · exact ⟨by subst h; decide, by subst h; decide⟩
  · exact ⟨by subst h; decide, by subst h; decide⟩
  · exact ⟨by subst h; decide, by subst h; decide⟩
  · exact ⟨by subst h; decide, by subst h; decide⟩
  · exact ⟨by subst h; decide, by subst h; decide⟩
  · exact ⟨by subst h; decide, by subst h; decide⟩
  · exact ⟨by subst h; decide, by subst h; decide⟩
  · exact ⟨(isDig_props c h).1, (isDig_props c h).2.2.1⟩

theorem padLeft_length (ds : List Char) (n : Nat) :
    (padLeft ds n).length = max n ds.length := by
  simp [padLeft]
  omega

theorem padLeft_all_dig (ds : List Char) (n : Nat) (h : ∀ c ∈ ds, isDig c = true) :
    ∀ c ∈ padLeft ds n, isDig c = true := by
  intro c hc
  rcases List.mem_append.mp hc with hc | hc
  · have := List.eq_of_mem_replicate hc
    subst this; decide
  · exact h c hc

theorem floatRepr_head (m : Int) (e : Nat) :
    ∃ c cs, floatRepr m e = c :: cs ∧ (c = '-' ∨ isDig c = true) := by
  unfold floatRepr
  by_cases hm : m < 0
  · simp only [hm, if_true]
    by_cases he : e = 0 <;> simp [he]
  · simp only [hm, if_false]
    by_cases he : e = 0
    · simp only [he, if_true, List.nil_append]
      match hnd : natDigits m.natAbs with
      | [] => exact absurd hnd (natDigits_ne_nil _)
      | c :: cs =>
        refine ⟨c, cs ++ toL ".0", by simp, Or.inr ?_⟩
        exact natDigits_all_dig m.natAbs c (by rw [hnd]; simp)
    · simp only [he, if_false, List.nil_append]
      have hlen : (padLeft (natDigits m.natAbs) (e + 1)).length ≥ e + 1 := by
        rw [padLeft_length]; omega
      have htk : (padLeft (natDigits m.natAbs) (e + 1)).length - e ≥ 1 := by omega
      match htake : (padLeft (natDigits m.natAbs) (e + 1)).take
          ((padLeft (natDigits m.natAbs) (e + 1)).length - e) with
      | [] =>
        exfalso
        have := congrArg List.length htake
        simp [List.length_take] at this
        omega
      | c :: cs =>
        refine ⟨c, cs ++ '.' :: (padLeft (natDigits m.natAbs) (e + 1)).drop
            ((padLeft (natDigits m.natAbs) (e + 1)).length - e),
          by rw [List.cons_append], Or.inr ?_⟩
        have hc : c ∈ padLeft (natDigits m.natAbs) (e + 1) :=
          List.mem_of_mem_take (by rw [htake]; simp)
        exact padLeft_all_dig _ _ (natDigits_all_dig m.natAbs) c hc

theorem dumps_head (p : PyVal) (lvl : Nat) :
    ∃ c cs, dumps p lvl = c :: cs ∧ goodHead c := by
  match p with
  | .none => exact ⟨'n', _, rfl, Or.inl rfl⟩
  | .bool true => exact ⟨'t', _, rfl, Or.inr (Or.inl rfl)⟩
  | .bool false => exact ⟨'f', _, rfl, Or.inr (Or.inr (Or.inl rfl))⟩
  | .str s => exact ⟨'"', _, rfl, Or.inr (Or.inr (Or.inr (Or.inl rfl)))⟩
  | .list .nil => exact ⟨'[', _, rfl, Or.inr (Or.inr (Or.inr (Or.inr (Or.inl rfl))))⟩
  | .list (.cons v tl) => exact ⟨'[', _, rfl, Or.inr (Or.inr (Or.inr (Or.inr (Or.inl rfl))))⟩
  | .dict .nil =>
    exact ⟨lbrace, _, rfl, Or.inr (Or.inr (Or.inr (Or.inr (Or.inr (Or.inl rfl)))))⟩
  | .dict (.cons k v tl) =>
    exact ⟨lbrace, _, rfl, Or.inr (Or.inr (Or.inr (Or.inr (Or.inr (Or.inl rfl)))))⟩
  | .int n =>
    show ∃ c cs, intRepr n = c :: cs ∧ goodHead c
    unfold intRepr
    by_cases hn : n < 0
    · exact ⟨'-', natDigits n.natAbs, by simp [hn],
        Or.inr (Or.inr (Or.inr (Or.inr (Or.inr (Or.inr (Or.inl rfl))))))⟩
    · simp only [hn, if_false]
      match hnd : natDigits n.natAbs with
      | [] => exact absurd hnd (natDigits_ne_nil _)
      | c :: cs =>
        refine ⟨c, cs, rfl, Or.inr (Or.inr (Or.inr (Or.inr (Or.inr (Or.inr (Or.inr ?_))))))⟩
        exact natDigits_all_dig n.natAbs c (by rw [hnd]; simp)
  | .float m e =>
    show ∃ c cs, floatRepr m e = c :: cs ∧ goodHead c
    obtain ⟨c, cs, hrepr, hc⟩ := floatRepr_head m e
    refine ⟨c, cs, hrepr, ?_⟩
    rcases hc with hc | hc
    · exact Or.inr (Or.inr (Or.inr (Or.inr (Or.inr (Or.inr (Or.inl hc))))))
    · exact Or.inr (Or.inr (Or.inr (Or.inr (Or.inr (Or.inr (Or.inr hc))))))

theorem skipWs_dumps (p : PyVal) (lvl : Nat) (rest : List Char) :
    skipWs (dumps p lvl ++ rest) = dumps p lvl ++ rest := by
  obtain ⟨c, cs, hd, hgood⟩ := dumps_head p lvl
  rw [hd, List.cons_append]
  exact skipWs_cons_not_ws c (cs ++ rest) (goodHead_not_ws c hgood)

theorem parseVal_congr_ws (fuel : Nat) (s t : List Char) (h : skipWs s = skipWs t) :
    parseVal fuel s = parseVal fuel t := by
  cases fuel with
  | zero => rfl
  | succ fuel => simp only [parseVal]; rw [h]

theorem parseElems_congr_ws (fuel : Nat) (s t : List Char) (h : skipWs s = skipWs t) :
    parseElems fuel s = parseElems fuel t := by
  cases fuel with
  | zero => rfl
  | succ fuel => simp only [parseElems]; rw [parseVal_congr_ws fuel s t h]

theorem parseEntries_congr_ws (fuel : Nat) (s t : List Char) (h : skipWs s = skipWs t) :
    parseEntries fuel s = parseEntries fuel t := by
  cases fuel with
  | zero => rfl
  | succ fuel => simp only [parseEntries]; rw [h]

theorem char_eq_of_toNat (c d : Char) (h : c.toNat = d.toNat) : c = d :=
  Char.eq_of_val_eq (UInt32.toNat.inj h)

theorem charToNat_ofNat (t : Nat) (h : t < 55296) : (Char.ofNat t).toNat = t := by
  simp [Char.ofNat]
  rw [dif_pos (Or.inl h)]
  rfl

theorem hexVal_hexChar (d : Nat) (h : d < 16) : hexVal (hexChar d) = some d := by
  interval_cases d <;> decide

theorem parseStrBody_encode :
    ∀ s rest, parseStrBody (encodeStrBody s ++ '"' :: rest) = some (s, rest) := by
  intro s
  induction s with
  | nil =>
    intro rest
    show parseStrBody ('"' :: rest) = some ([], rest)
    rw [parseStrBody.eq_def]
    simp
  | cons c cs ih =>
    intro rest
    simp only [encodeStrBody, List.append_assoc]
    by_cases hq : c = '"'
    · subst hq
      have henc : encodeChar '"' = ['\\', '"'] := by decide
      rw [henc, List.cons_append, List.cons_append, parseStrBody.eq_def]
      simp [escChar, ih rest]
    · by_cases hb : c = '\\'
      · subst hb
        have henc : encodeChar '\\' = ['\\', '\\'] := by decide
        rw [henc, List.cons_append, List.cons_append, parseStrBody.eq_def]
        simp [escChar, ih rest]
      · by_cases hc32 : c.toNat < 32
        · by_cases h8 : c.toNat = 8
          · have hc : c = Char.ofNat 8 :=
              char_eq_of_toNat c _ (by rw [charToNat_ofNat 8 (by omega)]; exact h8)
            subst hc
            have henc : encodeChar (Char.ofNat 8) = ['\\', 'b'] := by decide
            rw [henc, List.cons_append, List.cons_append, parseStrBody.eq_def]
            simp [escChar, ih rest]
          · by_cases h9 : c.toNat = 9
            · have hc : c = '\t' := char_eq_of_toNat c _ h9
              subst hc
              have henc : encodeChar '\t' = ['\\', 't'] := by decide
              rw [henc, List.cons_append, List.cons_append, parseStrBody.eq_def]
              simp [escChar, ih rest]
            · by_cases h10 : c.toNat = 10
              · have hc : c = '\n' := char_eq_of_toNat c _ h10
                subst hc
                have henc : encodeChar '\n' = ['\\', 'n'] := by decide
                rw [henc, List.cons_append, List.cons_append, parseStrBody.eq_def]
                simp [escChar, ih rest]
              · by_cases h12 : c.toNat = 12
                · have hc : c = Char.ofNat 12 :=
                    char_eq_of_toNat c _ (by rw [charToNat_ofNat 12 (by omega)]; exact h12)
                  subst hc
                  have henc : encodeChar (Char.ofNat 12) = ['\\', 'f'] := by decide
                  rw [henc, List.cons_append, List.cons_append, parseStrBody.eq_def]
                  simp [escChar, ih rest]
                · by_cases h13 : c.toNat = 13
                  · have hc : c = Char.ofNat 13 :=
                      char_eq_of_toNat c _ (by rw [charToNat_ofNat 13 (by omega)]; exact h13)
                    subst hc
                    have henc : encodeChar (Char.ofNat 13) = ['\\', 'r'] := by decide
                    rw [henc, List.cons_append, List.cons_append, parseStrBody.eq_def]
                    simp [escChar, ih rest]
                  · have henc : encodeChar c
                        = ['\\', 'u', '0', '0', hexChar (c.toNat / 16), hexChar (c.toNat % 16)] := by
                      simp [encodeChar, hq, hb, hc32, h8, h9, h10, h12, h13]
                    rw [henc]
                    have hhi : hexVal (hexChar (c.toNat / 16)) = some (c.toNat / 16) :=
                      hexVal_hexChar _ (by omega)
                    have hlo : hexVal (hexChar (c.toNat % 16)) = some (c.toNat % 16) :=
                      hexVal_hexChar _ (by omega)
                    have h0 : hexVal '0' = some 0 := by decide
                    have hofn : Char.ofNat (c.toNat / 16 * 16 + c.toNat % 16) = c := by
                      rw [show c.toNat / 16 * 16 + c.toNat % 16 = c.toNat by omega]
                      exact char_eq_of_toNat _ c (charToNat_ofNat c.toNat (by omega))
                    simp only [List.cons_append]
                    rw [parseStrBody.eq_def]
                    simp [hhi, hlo, h0, hofn, ih rest]
        · have henc : encodeChar c = [c] := by simp [encodeChar, hq, hb, hc32]
          rw [henc, List.cons_append]
          rw [parseStrBody.eq_def]
          simp [hq, hb, hc32, ih rest]

theorem numStop_headNotDig (rest : List Char) (h : numStop rest) : headNotDig rest := by
  cases rest with
  | nil => trivial
  | cons c cs => exact h.1

theorem digitsToNat_replicate_zero : ∀ n, digitsToNat (List.replicate n '0') = 0
  | 0 => rfl
  | n + 1 => by
    rw [List.replicate_succ]
    simp only [digitsToNat, List.foldl_cons]
    rw [show (0 * 10 + digVal '0') = 0 by decide]
    exact digitsToNat_replicate_zero n

theorem digitsToNat_padLeft (ds : List Char) (n : Nat) :
    digitsToNat (padLeft ds n) = digitsToNat ds := by
  unfold padLeft
  rw [digitsToNat_append, digitsToNat_replicate_zero]
  ring

theorem natDigits_head_ne_zero (a : Nat) (ha : a ≠ 0) (c : Char) (cs : List Char)
    (h : natDigits a = c :: cs) : c ≠ '0' := by
  intro he
  have := (natDigits_head a ha c cs h).1
  rw [he] at this
  exact this (by decide)

theorem natDigits_zero : natDigits 0 = ['0'] := by decide

/-- Leading-zero test passes on the digits of a natural number. -/
theorem natDigits_no_leading_zero (a : Nat) :
    ¬((natDigits a).head? = some '0' ∧ natDigits a ≠ ['0']) := by
  by_cases ha : a = 0
  · subst ha; rw [natDigits_zero]; simp
  · match hnd : natDigits a with
    | [] => exact absurd hnd (natDigits_ne_nil a)
    | c :: cs =>
      have := natDigits_head_ne_zero a ha c cs hnd
      simp [this]

theorem parseNum_int (neg : Bool) (a : Nat) (rest : List Char) (hstop : numStop rest) :
    parseNum neg (natDigits a ++ rest)
      = some (.int (if neg then -(a : Int) else (a : Int)), rest) := by
  have hspan := spanDigs_exact (natDigits a) (natDigits_all_dig a) rest
    (numStop_headNotDig rest hstop)
  unfold parseNum
  rw [hspan]
  simp only [if_neg (natDigits_ne_nil a), if_neg (natDigits_no_leading_zero a)]
  match rest, hstop with
  | [], _ => simp [digitsToNat_natDigits]
  | c2 :: r2, hstop =>
    simp only
    rw [if_neg hstop.2]
    simp [digitsToNat_natDigits]

/-- The unsigned part of `floatRepr`. -/
def floatBody (a : Nat) (e : Nat) : List Char :=
  if e = 0 then natDigits a ++ toL ".0"
  else
    (padLeft (natDigits a) (e + 1)).take ((padLeft (natDigits a) (e + 1)).length - e)
      ++ '.' :: (padLeft (natDigits a) (e + 1)).drop ((padLeft (natDigits a) (e + 1)).length - e)

theorem floatRepr_decomp (m : Int) (e : Nat) :
    floatRepr m e = (if m < 0 then ['-'] else []) ++ floatBody m.natAbs e := by
  unfold floatRepr floatBody
  by_cases he : e = 0 <;> simp [he]

theorem int_sign_abs (neg : Bool) (m : Int) (hneg : neg = decide (m < 0)) (b : Nat)
    (hb : b = m.natAbs) :
    (if neg then -(b : Int) else (b : Int)) = m := by
  by_cases hm : m < 0
  · rw [hneg, decide_eq_true hm, if_pos rfl]; omega
  · rw [hneg]
    rw [decide_eq_false hm, if_neg (by simp)]
    omega

theorem canonFloat_mul10 (m : Int) : canonFloat (m * 10) 1 = (m, 0) := by
  unfold canonFloat
  rw [if_pos (Int.mul_emod_left m 10)]
  unfold canonFloat
  rw [Int.mul_ediv_cancel m (by norm_num)]

theorem parseNum_decimal (neg : Bool) (dsp : List Char) (k : Nat) (rest : List Char)
    (halld : ∀ c ∈ dsp, isDig c = true) (hk1 : 1 ≤ k) (hklt : k < dsp.length)
    (hnolead : ¬((dsp.take k).head? = some '0' ∧ dsp.take k ≠ ['0']))
    (hstop : numStop rest) :
    parseNum neg (dsp.take k ++ '.' :: (dsp.drop k ++ rest))
      = some (.float
          (canonFloat (if neg = true then -(digitsToNat dsp : Int) else (digitsToNat dsp : Int))
            (dsp.length - k)).1
          (canonFloat (if neg = true then -(digitsToNat dsp : Int) else (digitsToNat dsp : Int))
            (dsp.length - k)).2, rest) := by
  have hspan := spanDigs_exact (dsp.take k)
    (fun c hcm => halld c (List.mem_of_mem_take hcm)) ('.' :: (dsp.drop k ++ rest))
    (by show isDig '.' = false; decide)
  unfold parseNum
  rw [hspan]
  have htk_len : (dsp.take k).length = k := by
    rw [List.length_take]; omega
  have htk_ne : dsp.take k ≠ [] := by
    intro h
    rw [h] at htk_len
    simp at htk_len
    omega
  rw [if_neg htk_ne, if_neg hnolead]
  simp only [reduceIte]
  have hspan2 := spanDigs_exact (dsp.drop k)
    (fun c hcm => halld c (List.mem_of_mem_drop hcm)) rest (numStop_headNotDig rest hstop)
  rw [hspan2]
  have hdr_len : (dsp.drop k).length = dsp.length - k := List.length_drop k dsp
  have hdr_ne : dsp.drop k ≠ [] := by
    intro h
    rw [h] at hdr_len
    simp at hdr_len
    omega
  rw [if_neg hdr_ne]
  rw [List.take_append_drop, hdr_len]

theorem parseNum_floatBody (neg : Bool) (m : Int) (e : Nat)
    (hneg : neg = decide (m < 0)) (hc : floatCanon m e = true)
    (rest : List Char) (hstop : numStop rest) :
    parseNum neg (floatBody m.natAbs e ++ rest) = some (.float m e, rest) := by
  by_cases he : e = 0
  · subst he
    rw [show floatBody m.natAbs 0 = natDigits m.natAbs ++ ['.', '0'] from by
      unfold floatBody; simp [toL]]
    rw [List.append_assoc]
    have hspan := spanDigs_exact (natDigits m.natAbs) (natDigits_all_dig _)
      ('.' :: '0' :: rest) (by show isDig '.' = false; decide)
    unfold parseNum
    simp only [List.cons_append, List.nil_append]
    rw [hspan]
    simp only [if_neg (natDigits_ne_nil _), if_neg (natDigits_no_leading_zero _)]
    simp only [reduceIte]
    have hspan2 := spanDigs_exact ['0'] (by decide) rest (numStop_headNotDig rest hstop)
    rw [show ('0' :: rest) = ['0'] ++ rest from rfl, hspan2]
    have hval : digitsToNat (natDigits m.natAbs ++ ['0']) = m.natAbs * 10 := by
      rw [digitsToNat_append, digitsToNat_natDigits]
      simp [digitsToNat, digVal]
    have hsgn : neg = decide (m * 10 < 0) := by
      rw [hneg]
      exact decide_eq_decide.mpr (by omega)
    have hm' : (if neg = true then -((digitsToNat (natDigits m.natAbs ++ ['0'])) : Int)
        else ((digitsToNat (natDigits m.natAbs ++ ['0'])) : Int)) = m * 10 := by
      rw [hval]
      exact int_sign_abs neg (m * 10) hsgn (m.natAbs * 10) (by omega)
    simp only [hm', List.length_singleton, canonFloat_mul10]
    simp
  · have hee : ∃ q, e = q + 1 := ⟨e - 1, by omega⟩
    obtain ⟨e', rfl⟩ := hee
    have hm10 : ¬(m % 10 = 0) := by
      unfold floatCanon at hc
      simp at hc
      omega
    have hLlen : (padLeft (natDigits m.natAbs) (e' + 1 + 1)).length
        = max (e' + 1 + 1) (natDigits m.natAbs).length := padLeft_length _ _
    have hLge : (padLeft (natDigits m.natAbs) (e' + 1 + 1)).length ≥ e' + 2 := by omega
    have hbody : floatBody m.natAbs (e' + 1)
        = (padLeft (natDigits m.natAbs) (e' + 1 + 1)).take
            ((padLeft (natDigits m.natAbs) (e' + 1 + 1)).length - (e' + 1))
          ++ '.' :: (padLeft (natDigits m.natAbs) (e' + 1 + 1)).drop
            ((padLeft (natDigits m.natAbs) (e' + 1 + 1)).length - (e' + 1)) := by
      unfold floatBody
      rw [if_neg (by omega)]
    rw [hbody, List.append_assoc]
    simp only [List.cons_append]
    have hnolead : ¬(((padLeft (natDigits m.natAbs) (e' + 1 + 1)).take
          ((padLeft (natDigits m.natAbs) (e' + 1 + 1)).length - (e' + 1))).head? = some '0'
        ∧ (padLeft (natDigits m.natAbs) (e' + 1 + 1)).take
          ((padLeft (natDigits m.natAbs) (e' + 1 + 1)).length - (e' + 1)) ≠ ['0']) := by
      by_cases hlen : (natDigits m.natAbs).length < e' + 1 + 1
      · have hL1 : (padLeft (natDigits m.natAbs) (e' + 1 + 1)).length = e' + 1 + 1 := by omega
        have hkeq : (padLeft (natDigits m.natAbs) (e' + 1 + 1)).length - (e' + 1) = 1 := by omega
        obtain ⟨q, hq⟩ : ∃ q, e' + 1 + 1 - (natDigits m.natAbs).length = q + 1 :=
          ⟨e' + 1 + 1 - (natDigits m.natAbs).length - 1, by omega⟩
        have hdsp' : padLeft (natDigits m.natAbs) (e' + 1 + 1)
            = '0' :: (List.replicate q '0' ++ natDigits m.natAbs) := by
          unfold padLeft
          rw [hq, List.replicate_succ, List.cons_append]
        rw [hkeq, hdsp']
        simp
      · have hdsp' : padLeft (natDigits m.natAbs) (e' + 1 + 1) = natDigits m.natAbs := by
          unfold padLeft
          rw [show e' + 1 + 1 - (natDigits m.natAbs).length = 0 by omega]
          simp
        have hane : m.natAbs ≠ 0 := by
          intro h0
          rw [h0, natDigits_zero] at hlen
          exact hlen (by simp)
        rw [hdsp']
        match hnd : natDigits m.natAbs, hlen, hLge with
        | [], hlen, hLge => exact absurd hnd (natDigits_ne_nil _)
        | c :: cs, hlen, hLge =>
          have hcne : c ≠ '0' := natDigits_head_ne_zero m.natAbs hane c cs hnd
          have hlen2 : cs.length + 1 ≥ e' + 2 := by
            simp only [List.length_cons] at hlen
            omega
          rw [show (c :: cs).length - (e' + 1) = ((c :: cs).length - (e' + 1) - 1) + 1 from by
            simp only [List.length_cons]; omega, List.take_succ_cons]
          simp [hcne]
    rw [parseNum_decimal neg _ _ rest (padLeft_all_dig _ _ (natDigits_all_dig _))
      (by omega) (by omega) hnolead hstop]
    have hval : digitsToNat (padLeft (natDigits m.natAbs) (e' + 1 + 1)) = m.natAbs := by
      rw [digitsToNat_padLeft, digitsToNat_natDigits]
    have hm' : (if neg = true
        then -((digitsToNat (padLeft (natDigits m.natAbs) (e' + 1 + 1))) : Int)
        else ((digitsToNat (padLeft (natDigits m.natAbs) (e' + 1 + 1))) : Int)) = m := by
      rw [hval]
      exact int_sign_abs neg m hneg m.natAbs rfl
    rw [hm']
    rw [show (padLeft (natDigits m.natAbs) (e' + 1 + 1)).length
        - ((padLeft (natDigits m.natAbs) (e' + 1 + 1)).length - (e' + 1)) = e' + 1 by omega]
    rw [show canonFloat m (e' + 1) = (m, e' + 1) from by
      unfold canonFloat; rw [if_neg hm10]]

theorem floatBody_head (a e : Nat) :
    ∃ c cs, floatBody a e = c :: cs ∧ isDig c = true := by
  unfold floatBody
  by_cases he : e = 0
  · simp only [he, if_pos rfl]
    match hnd : natDigits a with
    | [] => exact absurd hnd (natDigits_ne_nil _)
    | c :: cs =>
      exact ⟨c, cs ++ toL ".0", by simp, natDigits_all_dig a c (by rw [hnd]; simp)⟩
  · simp only [he, if_false]
    have hlen : (padLeft (natDigits a) (e + 1)).length ≥ e + 1 := by
      rw [padLeft_length]; omega
    match htake : (padLeft (natDigits a) (e + 1)).take
        ((padLeft (natDigits a) (e + 1)).length - e) with
    | [] =>
      exfalso
      have := congrArg List.length htake
      simp [List.length_take] at this
      omega
    | c :: cs =>
      refine ⟨c, cs ++ '.' :: (padLeft (natDigits a) (e + 1)).drop
          ((padLeft (natDigits a) (e + 1)).length - e),
        by rw [List.cons_append], ?_⟩
      have hcm : c ∈ padLeft (natDigits a) (e + 1) :=
        List.mem_of_mem_take (by rw [htake]; simp)
      exact padLeft_all_dig _ _ (natDigits_all_dig a) c hcm

/-- Scanner step: null keyword. -/
theorem parseVal_null (fuel : Nat) (r : List Char) :
    parseVal (fuel + 1) ('n' :: 'u' :: 'l' :: 'l' :: r) = some (.none, r) := by
  rw [parseVal.eq_def]
  simp [skipWs, isWs]

/-- Scanner step: true keyword. -/
theorem parseVal_true (fuel : Nat) (r : List Char) :
    parseVal (fuel + 1) ('t' :: 'r' :: 'u' :: 'e' :: r) = some (.bool true, r) := by
  rw [parseVal.eq_def]
  simp [skipWs, isWs]

/-- Scanner step: false keyword. -/
theorem parseVal_false (fuel : Nat) (r : List Char) :
    parseVal (fuel + 1) ('f' :: 'a' :: 'l' :: 's' :: 'e' :: r) = some (.bool false, r) := by
  rw [parseVal.eq_def]
  simp [skipWs, isWs]

/-- Scanner step: string literal. -/
theorem parseVal_quote (fuel : Nat) (r : List Char) :
    parseVal (fuel + 1) ('"' :: r) = (parseStrBody r).map (fun p => (.str p.1, p.2)) := by
  rw [parseVal.eq_def]
  simp [skipWs, isWs]

/-- Scanner step: array opener. -/
theorem parseVal_lbracket (fuel : Nat) (r : List Char) :
    parseVal (fuel + 1) ('[' :: r) = parseArr fuel r := by
  rw [parseVal.eq_def]
  simp [skipWs, isWs]

/-- Scanner step: object opener. -/
theorem parseVal_lbraceC (fuel : Nat) (r : List Char) :
    parseVal (fuel + 1) (lbrace :: r) = parseObj fuel r := by
  rw [parseVal.eq_def]
  simp only []
  rw [skipWs_cons_not_ws _ _ (by decide)]
  simp only []
  rw [if_neg (by decide : ¬lbrace = 'n'), if_neg (by decide : ¬lbrace = 't'),
    if_neg (by decide : ¬lbrace = 'f'), if_neg (by decide : ¬lbrace = '"'),
    if_neg (by decide : ¬lbrace = '[')]
  simp

/-- Scanner step: negative number. -/
theorem parseVal_dash (fuel : Nat) (r : List Char) :
    parseVal (fuel + 1) ('-' :: r) = parseNum true r := by
  rw [parseVal.eq_def]
  simp only []
  rw [skipWs_cons_not_ws _ _ (by decide)]
  simp only []
  rw [if_neg (by decide : ¬('-' : Char) = 'n'), if_neg (by decide : ¬('-' : Char) = 't'),
    if_neg (by decide : ¬('-' : Char) = 'f'), if_neg (by decide : ¬('-' : Char) = '"'),
    if_neg (by decide : ¬('-' : Char) = '['), if_neg (by decide : ¬('-' : Char) = lbrace)]
  simp

/-- Scanner step: unsigned number. -/
theorem parseVal_digit (fuel : Nat) (c : Char) (r : List Char) (h : isDig c = true) :
    parseVal (fuel + 1) (c :: r) = parseNum false (c :: r) := by
  obtain ⟨hp1, hp2, hp3, hp4, hp5, hp6, hp7, hp8, hp9, hp10, hp11⟩ := isDig_props c h
  rw [parseVal.eq_def]
  simp only []
  rw [skipWs_cons_not_ws _ _ (isDig_not_ws c h)]
  simp only []
  rw [if_neg hp5, if_neg hp6, if_neg hp7, if_neg hp8, if_neg hp9, if_neg hp10,
    if_neg hp11]
  simp [h]

/-- Scanner step: whitespace invariance of `parseArr`. -/
theorem parseArr_congr_ws (fuel : Nat) (s t : List Char) (h : skipWs s = skipWs t) :
    parseArr fuel s = parseArr fuel t := by
  cases fuel with
  | zero => rfl
  | succ fuel =>
    rw [parseArr.eq_def, parseArr.eq_def]
    simp only []
    rw [h]

/-- Scanner step: whitespace invariance of `parseObj`. -/
theorem parseObj_congr_ws (fuel : Nat) (s t : List Char) (h : skipWs s = skipWs t) :
    parseObj fuel s = parseObj fuel t := by
  cases fuel with
  | zero => rfl
  | succ fuel =>
    rw [parseObj.eq_def, parseObj.eq_def]
    simp only []
    rw [h]

/-- Scanner step: empty array close. -/
theorem parseArr_close (fuel : Nat) (u : List Char) :
    parseArr (fuel + 1) (']' :: u) = some (.list .nil, u) := by
  rw [parseArr.eq_def]
  simp only []
  rw [skipWs_cons_not_ws _ _ (by decide)]
  simp

/-- Scanner step: nonempty array delegates to the element loop. -/
theorem parseArr_go (fuel : Nat) (c : Char) (u : List Char) (hne : ¬c = ']')
    (hws : isWs c = false) :
    parseArr (fuel + 1) (c :: u) = (parseElems fuel (c :: u)).map (fun p => (.list p.1, p.2)) := by
  rw [parseArr.eq_def]
  simp only []
  rw [skipWs_cons_not_ws _ _ hws]
  simp only []
  rw [if_neg hne]

/-- Scanner step: empty object close. -/
theorem parseObj_close (fuel : Nat) (u : List Char) :
    parseObj (fuel + 1) (rbrace :: u) = some (.dict .nil, u) := by
  rw [parseObj.eq_def]
  simp only []
  rw [skipWs_cons_not_ws _ _ (by decide)]
  simp

/-- Scanner step: nonempty object delegates to the entry loop. -/
theorem parseObj_go (fuel : Nat) (c : Char) (u : List Char) (hne : ¬c = rbrace)
    (hws : isWs c = false) :
    parseObj (fuel + 1) (c :: u)
      = (parseEntries fuel (c :: u)).map (fun p => (.dict p.1, p.2)) := by
  rw [parseObj.eq_def]
  simp only []
  rw [skipWs_cons_not_ws _ _ hws]
  simp only []
  rw [if_neg hne]

/-- Scanner step: last element of an array. -/
theorem parseElems_last (fuel : Nat) (s : List Char) (v : PyVal) (r u : List Char)
    (h1 : parseVal fuel s = some (v, r)) (h2 : skipWs r = ']' :: u) :
    parseElems (fuel + 1) s = some (.cons v .nil, u) := by
  rw [parseElems.eq_def]
  simp only []
  rw [h1]
  simp only []
  rw [h2]
  simp

/-- Scanner step: a comma-continued element of an array. -/
theorem parseElems_more (fuel : Nat) (s : List Char) (v : PyVal) (r u : List Char)
    (tl : PyList) (u2 : List Char)
    (h1 : parseVal fuel s = some (v, r)) (h2 : skipWs r = ',' :: u)
    (h3 : parseElems fuel u = some (tl, u2)) :
    parseElems (fuel + 1) s = some (.cons v tl, u2) := by
  rw [parseElems.eq_def]
  simp only []
  rw [h1]
  simp only []
  rw [h2]
  simp only []
  rw [if_neg (by decide : ¬(',' : Char) = ']'), if_pos trivial, h3]

/-- Scanner step: last entry of an object. -/
theorem parseEntries_last (fuel : Nat) (s kr : List Char) (k r2 r3 : List Char) (v : PyVal)
    (r4 u : List Char)
    (h0 : skipWs s = '"' :: kr) (h1 : parseStrBody kr = some (k, r2))
    (h2 : skipWs r2 = ':' :: r3) (h3 : parseVal fuel r3 = some (v, r4))
    (h4 : skipWs r4 = rbrace :: u) :
    parseEntries (fuel + 1) s = some (.cons k v .nil, u) := by
  rw [parseEntries.eq_def]
  simp only []
  rw [h0]
  simp only []
  rw [if_pos trivial, h1]
  simp only []
  rw [h2]
  simp only []
  rw [if_pos trivial, h3]
  simp only []
  rw [h4]
  simp only []
  rw [if_pos trivial]

/-- Scanner step: a comma-continued entry of an object. -/
theorem parseEntries_more (fuel : Nat) (s kr : List Char) (k r2 r3 : List Char) (v : PyVal)
    (r4 u : List Char) (tl : PyDict) (u2 : List Char)
    (h0 : skipWs s = '"' :: kr) (h1 : parseStrBody kr = some (k, r2))
    (h2 : skipWs r2 = ':' :: r3) (h3 : parseVal fuel r3 = some (v, r4))
    (h4 : skipWs r4 = ',' :: u) (h5 : parseEntries fuel u = some (tl, u2)) :
    parseEntries (fuel + 1) s = some (.cons k v tl, u2) := by
  rw [parseEntries.eq_def]
  simp only []
  rw [h0]
  simp only []
  rw [if_pos trivial, h1]
  simp only []
  rw [h2]
  simp only []
  rw [if_pos trivial, h3]
  simp only []
  rw [h4]
  simp only []
  rw [if_neg (by decide : ¬(',' : Char) = rbrace), if_pos trivial, h5]

mutual

theorem roundVal : ∀ (p : PyVal), canonV p = true →
    ∀ (f lvl : Nat) (rest : List Char), numStop rest →
      parseVal (f + pyFuel p) (dumps p lvl ++ rest) = some (p, rest)
  | PyVal.none, hc => by
    intro f lvl rest hstop
    rw [show pyFuel PyVal.none = 1 from by simp [pyFuel]]
    rw [show dumps PyVal.none lvl = 'n' :: 'u' :: 'l' :: 'l' :: [] from by simp [dumps]; decide]
    simp only [List.cons_append, List.nil_append]
    exact parseVal_null f rest
  | PyVal.bool true, hc => by
    intro f lvl rest hstop
    rw [show pyFuel (PyVal.bool true) = 1 from by simp [pyFuel]]
    rw [show dumps (PyVal.bool true) lvl = 't' :: 'r' :: 'u' :: 'e' :: [] from by
      simp [dumps]; decide]
    simp only [List.cons_append, List.nil_append]
    exact parseVal_true f rest
  | PyVal.bool false, hc => by
    intro f lvl rest hstop
    rw [show pyFuel (PyVal.bool false) = 1 from by simp [pyFuel]]
    rw [show dumps (PyVal.bool false) lvl = 'f' :: 'a' :: 'l' :: 's' :: 'e' :: [] from by
      simp [dumps]; decide]
    simp only [List.cons_append, List.nil_append]
    exact parseVal_false f rest
  | PyVal.str s, hc => by
    intro f lvl rest hstop
    rw [show pyFuel (PyVal.str s) = 1 from by simp [pyFuel]]
    rw [show dumps (PyVal.str s) lvl = '"' :: (encodeStrBody s ++ ['"']) from by simp [dumps]]
    simp only [List.cons_append, List.append_assoc, List.nil_append]
    rw [parseVal_quote, parseStrBody_encode s rest]
    rfl
  | PyVal.int n, hc => by
    intro f lvl rest hstop
    rw [show pyFuel (PyVal.int n) = 1 from by simp [pyFuel]]
    rw [show dumps (PyVal.int n) lvl = intRepr n from by simp [dumps]]
    by_cases hn : n < 0
    · rw [show intRepr n = '-' :: natDigits n.natAbs from by simp [intRepr, hn]]
      simp only [List.cons_append]
      rw [parseVal_dash, parseNum_int true n.natAbs rest hstop]
      rw [if_pos rfl, show -(n.natAbs : Int) = n by omega]
    · match hnd : natDigits n.natAbs with
      | [] => exact absurd hnd (natDigits_ne_nil _)
      | c :: cs =>
        have hdig : isDig c = true := natDigits_all_dig n.natAbs c (by rw [hnd]; simp)
        rw [show intRepr n = natDigits n.natAbs from by simp [intRepr, hn], hnd]
        simp only [List.cons_append]
        rw [parseVal_digit f c (cs ++ rest) hdig]
        rw [show c :: (cs ++ rest) = (c :: cs) ++ rest from rfl, ← hnd]
        rw [parseNum_int false n.natAbs rest hstop]
        rw [if_neg (by decide : ¬false = true), show (n.natAbs : Int) = n by omega]
  | PyVal.float m e, hc => by
    intro f lvl rest hstop
    have hcf : floatCanon m e = true := by simpa [canonV] using hc
    rw [show pyFuel (PyVal.float m e) = 1 from by simp [pyFuel]]
    rw [show dumps (PyVal.float m e) lvl = floatRepr m e from by simp [dumps]]
    rw [floatRepr_decomp]
    by_cases hm : m < 0
    · simp only [if_pos hm, List.cons_append, List.append_assoc, List.nil_append]
      rw [parseVal_dash]
      exact parseNum_floatBody true m e (by rw [decide_eq_true hm]) hcf rest hstop
    · simp only [if_neg hm, List.nil_append]
      obtain ⟨c, cs, hbd, hdig⟩ := floatBody_head m.natAbs e
      rw [hbd]
      simp only [List.cons_append]
      rw [parseVal_digit f c (cs ++ rest) hdig]
      rw [show c :: (cs ++ rest) = (c :: cs) ++ rest from rfl, ← hbd]
      exact parseNum_floatBody false m e (by rw [decide_eq_false hm]) hcf rest hstop
  | PyVal.list PyList.nil, hc => by
    intro f lvl rest hstop
    rw [show pyFuel (PyVal.list PyList.nil) = 2 from by simp [pyFuel, pyFuelL]]
    rw [show dumps (PyVal.list PyList.nil) lvl = '[' :: ']' :: [] from by
      simp [dumps]; decide]
    simp only [List.cons_append, List.nil_append]
    rw [show f + 2 = (f + 1) + 1 from rfl, parseVal_lbracket, parseArr_close]
  | PyVal.list (PyList.cons v tl), hc => by
    intro f lvl rest hstop
    have hcs : canonV v = true ∧ canonL tl = true := by
      have := hc
      simp [canonV, canonL] at this
      exact this
    rw [show pyFuel (PyVal.list (PyList.cons v tl)) = pyFuelL (PyList.cons v tl) + 2 from by
      simp [pyFuel]]
    rw [show dumps (PyVal.list (PyList.cons v tl)) lvl
        = '[' :: (nlIndent (lvl + 1) ++ dumps v (lvl + 1) ++ dumpsElems tl (lvl + 1)
          ++ nlIndent lvl ++ [']']) from by simp [dumps]]
    simp only [List.cons_append, List.append_assoc, List.nil_append]
    rw [show f + (pyFuelL (PyList.cons v tl) + 2)
        = ((f + pyFuelL (PyList.cons v tl)) + 1) + 1 by omega]
    rw [parseVal_lbracket]
    rw [parseArr_congr_ws _ _
      (dumps v (lvl + 1) ++ (dumpsElems tl (lvl + 1) ++ (nlIndent lvl ++ (']' :: rest))))
      (by rw [skipWs_nlIndent])]
    obtain ⟨ch, chs, hdv, hgood⟩ := dumps_head v (lvl + 1)
    rw [hdv]
    simp only [List.cons_append]
    rw [parseArr_go _ ch _ (goodHead_not_close ch hgood).1 (goodHead_not_ws ch hgood)]
    rw [show ch :: (chs ++ (dumpsElems tl (lvl + 1) ++ (nlIndent lvl ++ (']' :: rest))))
        = (ch :: chs) ++ (dumpsElems tl (lvl + 1) ++ (nlIndent lvl ++ (']' :: rest)))
      from rfl, ← hdv]
    rw [roundElems v tl hcs.1 hcs.2 f (lvl + 1) lvl rest]
    rfl
  | PyVal.dict PyDict.nil, hc => by
    intro f lvl rest hstop
    rw [show pyFuel (PyVal.dict PyDict.nil) = 2 from by simp [pyFuel, pyFuelD]]
    rw [show dumps (PyVal.dict PyDict.nil) lvl = lbrace :: rbrace :: [] from by simp [dumps]]
    simp only [List.cons_append, List.nil_append]
    rw [show f + 2 = (f + 1) + 1 from rfl, parseVal_lbraceC, parseObj_close]
  | PyVal.dict (PyDict.cons k v tl), hc => by
    intro f lvl rest hstop
    have hcs : canonV v = true ∧ canonD tl = true := by
      have := hc
      simp [canonV, canonD] at this
      exact this
    rw [show pyFuel (PyVal.dict (PyDict.cons k v tl)) = pyFuelD (PyDict.cons k v tl) + 2 from by
      simp [pyFuel]]
    rw [show dumps (PyVal.dict (PyDict.cons k v tl)) lvl
        = lbrace :: (nlIndent (lvl + 1) ++ ('"' :: encodeStrBody k ++ ['"'])
          ++ ':' :: ' ' :: dumps v (lvl + 1) ++ dumpsEntries tl (lvl + 1)
          ++ nlIndent lvl ++ [rbrace]) from by simp [dumps]]
    simp only [List.cons_append, List.append_assoc, List.nil_append]
    rw [show f + (pyFuelD (PyDict.cons k v tl) + 2)
        = ((f + pyFuelD (PyDict.cons k v tl)) + 1) + 1 by omega]
    rw [parseVal_lbraceC]
    rw [parseObj_congr_ws _ _
      ('"' :: (encodeStrBody k ++ '"' :: ':' :: ' '
        :: (dumps v (lvl + 1) ++ (dumpsEntries tl (lvl + 1) ++ (nlIndent lvl ++ rbrace :: rest)))))
      (by rw [skipWs_nlIndent])]
    rw [parseObj_go _ '"' _ (by decide) (by decide)]
    rw [roundEntries k v tl hcs.1 hcs.2 f (lvl + 1) lvl rest]
    rfl
termination_by p hc => sizeOf p
decreasing_by all_goals simp_wf <;> omega

theorem roundElems : ∀ (v : PyVal) (tl : PyList), canonV v = true → canonL tl = true →
    ∀ (f lvl lc : Nat) (rest : List Char),
      parseElems (f + pyFuelL (PyList.cons v tl))
        (dumps v lvl ++ (dumpsElems tl lvl ++ (nlIndent lc ++ ']' :: rest)))
        = some (PyList.cons v tl, rest)
  | v, PyList.nil, hcv, hct => by
    intro f lvl lc rest
    rw [show pyFuelL (PyList.cons v PyList.nil) = pyFuel v + pyFuelL PyList.nil + 1 from by
      simp [pyFuelL]]
    rw [show f + (pyFuel v + pyFuelL PyList.nil + 1)
        = ((f + pyFuelL PyList.nil) + pyFuel v) + 1 by omega]
    have hstop : numStop (dumpsElems PyList.nil lvl ++ (nlIndent lc ++ ']' :: rest)) := by
      rw [show dumpsElems PyList.nil lvl = ([] : List Char) from by simp [dumpsElems],
        List.nil_append, nlIndent]
      exact ⟨by decide, by decide⟩
    have hv := roundVal v hcv (f + pyFuelL PyList.nil) lvl _ hstop
    refine parseElems_last _ _ v _ rest hv ?_
    rw [show dumpsElems PyList.nil lvl = ([] : List Char) from by simp [dumpsElems],
      List.nil_append, skipWs_nlIndent, skipWs_cons_not_ws _ _ (by decide)]
  | v, PyList.cons w tw, hcv, hct => by
    intro f lvl lc rest
    rw [show pyFuelL (PyList.cons v (PyList.cons w tw))
        = pyFuel v + pyFuelL (PyList.cons w tw) + 1 from by simp [pyFuelL]]
    rw [show f + (pyFuel v + pyFuelL (PyList.cons w tw) + 1)
        = ((f + pyFuelL (PyList.cons w tw)) + pyFuel v) + 1 by omega]
    have hcs : canonV w = true ∧ canonL tw = true := by
      have := hct
      simp [canonL] at this
      exact this
    have hstop : numStop (dumpsElems (PyList.cons w tw) lvl ++ (nlIndent lc ++ ']' :: rest)) := by
      rw [show dumpsElems (PyList.cons w tw) lvl
          = ',' :: nlIndent lvl ++ dumps w lvl ++ dumpsElems tw lvl from by simp [dumpsElems]]
      simp only [List.cons_append]
      exact ⟨by decide, by decide⟩
    have hv := roundVal v hcv (f + pyFuelL (PyList.cons w tw)) lvl _ hstop
    refine parseElems_more _ _ v _
      (nlIndent lvl ++ (dumps w lvl ++ (dumpsElems tw lvl ++ (nlIndent lc ++ ']' :: rest))))
      (PyList.cons w tw) rest hv ?_ ?_
    · rw [show dumpsElems (PyList.cons w tw) lvl
          = ',' :: nlIndent lvl ++ dumps w lvl ++ dumpsElems tw lvl from by simp [dumpsElems]]
      simp only [List.cons_append, List.append_assoc]
      rw [skipWs_cons_not_ws _ _ (by decide)]
    · rw [parseElems_congr_ws _ _
        (dumps w lvl ++ (dumpsElems tw lvl ++ (nlIndent lc ++ ']' :: rest)))
        (by rw [skipWs_nlIndent])]
      rw [show (f + pyFuelL (PyList.cons w tw)) + pyFuel v
          = (f + pyFuel v) + pyFuelL (PyList.cons w tw) by omega]
      exact roundElems w tw hcs.1 hcs.2 (f + pyFuel v) lvl lc rest
termination_by v tl hcv hct => 1 + sizeOf v + sizeOf tl
decreasing_by all_goals simp_wf <;> omega

theorem roundEntries : ∀ (k : List Char) (v : PyVal) (tl : PyDict), canonV v = true →
    canonD tl = true →
    ∀ (f lvl lc : Nat) (rest : List Char),
      parseEntries (f + pyFuelD (PyDict.cons k v tl))
        ('"' :: (encodeStrBody k ++ '"' :: ':' :: ' '
          :: (dumps v lvl ++ (dumpsEntries tl lvl ++ (nlIndent lc ++ rbrace :: rest)))))
        = some (PyDict.cons k v tl, rest)
  | k, v, PyDict.nil, hcv, hct => by
    intro f lvl lc rest
    rw [show pyFuelD (PyDict.cons k v PyDict.nil) = pyFuel v + pyFuelD PyDict.nil + 1 from by
      simp [pyFuelD]]
    rw [show f + (pyFuel v + pyFuelD PyDict.nil + 1)
        = ((f + pyFuelD PyDict.nil) + pyFuel v) + 1 by omega]
    have h0 : skipWs ('"' :: (encodeStrBody k ++ '"' :: ':' :: ' '
        :: (dumps v lvl ++ (dumpsEntries PyDict.nil lvl ++ (nlIndent lc ++ rbrace :: rest)))))
        = '"' :: (encodeStrBody k ++ '"' :: ':' :: ' '
        :: (dumps v lvl ++ (dumpsEntries PyDict.nil lvl ++ (nlIndent lc ++ rbrace :: rest)))) :=
      skipWs_cons_not_ws _ _ (by decide)
    have h1 := parseStrBody_encode k (':' :: ' '
      :: (dumps v lvl ++ (dumpsEntries PyDict.nil lvl ++ (nlIndent lc ++ rbrace :: rest))))
    have h2 : skipWs (':' :: ' '
        :: (dumps v lvl ++ (dumpsEntries PyDict.nil lvl ++ (nlIndent lc ++ rbrace :: rest))))
        = ':' :: ' '
          :: (dumps v lvl ++ (dumpsEntries PyDict.nil lvl ++ (nlIndent lc ++ rbrace :: rest))) :=
      skipWs_cons_not_ws _ _ (by decide)
    have hstop : numStop (dumpsEntries PyDict.nil lvl ++ (nlIndent lc ++ rbrace :: rest)) := by
      rw [show dumpsEntries PyDict.nil lvl = ([] : List Char) from by simp [dumpsEntries],
        List.nil_append, nlIndent]
      exact ⟨by decide, by decide⟩
    have hv : parseVal ((f + pyFuelD PyDict.nil) + pyFuel v)
        (' ' :: (dumps v lvl ++ (dumpsEntries PyDict.nil lvl ++ (nlIndent lc ++ rbrace :: rest))))
        = some (v, dumpsEntries PyDict.nil lvl ++ (nlIndent lc ++ rbrace :: rest)) := by
      rw [parseVal_congr_ws _ _
        (dumps v lvl ++ (dumpsEntries PyDict.nil lvl ++ (nlIndent lc ++ rbrace :: rest)))
        (skipWs_sp _)]
      exact roundVal v hcv (f + pyFuelD PyDict.nil) lvl _ hstop
    refine parseEntries_last _ _ _ k _ _ v _ rest h0 h1 h2 hv ?_
    rw [show dumpsEntries PyDict.nil lvl = ([] : List Char) from by simp [dumpsEntries],
      List.nil_append, skipWs_nlIndent, skipWs_cons_not_ws _ _ (by decide)]
  | k, v, PyDict.cons k2 w tw, hcv, hct => by
    intro f lvl lc rest
    rw [show pyFuelD (PyDict.cons k v (PyDict.cons k2 w tw))
        = pyFuel v + pyFuelD (PyDict.cons k2 w tw) + 1 from by simp [pyFuelD]]
    rw [show f + (pyFuel v + pyFuelD (PyDict.cons k2 w tw) + 1)
        = ((f + pyFuelD (PyDict.cons k2 w tw)) + pyFuel v) + 1 by omega]
    have h0 : skipWs ('"' :: (encodeStrBody k ++ '"' :: ':' :: ' '
        :: (dumps v lvl ++ (dumpsEntries (PyDict.cons k2 w tw) lvl
          ++ (nlIndent lc ++ rbrace :: rest)))))
        = '"' :: (encodeStrBody k ++ '"' :: ':' :: ' '
        :: (dumps v lvl ++ (dumpsEntries (PyDict.cons k2 w tw) lvl
          ++ (nlIndent lc ++ rbrace :: rest)))) :=
      skipWs_cons_not_ws _ _ (by decide)
    have h1 := parseStrBody_encode k (':' :: ' '
      :: (dumps v lvl ++ (dumpsEntries (PyDict.cons k2 w tw) lvl
        ++ (nlIndent lc ++ rbrace :: rest))))
    have h2 : skipWs (':' :: ' '
        :: (dumps v lvl ++ (dumpsEntries (PyDict.cons k2 w tw) lvl
          ++ (nlIndent lc ++ rbrace :: rest))))
        = ':' :: ' ' :: (dumps v lvl ++ (dumpsEntries (PyDict.cons k2 w tw) lvl
          ++ (nlIndent lc ++ rbrace :: rest))) :=
      skipWs_cons_not_ws _ _ (by decide)
    have hcs : canonV w = true ∧ canonD tw = true := by
      have := hct
      simp [canonD] at this
      exact this
    have hstop : numStop (dumpsEntries (PyDict.cons k2 w tw) lvl
        ++ (nlIndent lc ++ rbrace :: rest)) := by
      rw [show dumpsEntries (PyDict.cons k2 w tw) lvl
          = ',' :: nlIndent lvl ++ ('"' :: encodeStrBody k2 ++ ['"']) ++ ':' :: ' '
            :: dumps w lvl ++ dumpsEntries tw lvl from by simp [dumpsEntries]]
      simp only [List.cons_append]
      exact ⟨by decide, by decide⟩
    have hv : parseVal ((f + pyFuelD (PyDict.cons k2 w tw)) + pyFuel v)
        (' ' :: (dumps v lvl ++ (dumpsEntries (PyDict.cons k2 w tw) lvl
          ++ (nlIndent lc ++ rbrace :: rest))))
        = some (v, dumpsEntries (PyDict.cons k2 w tw) lvl ++ (nlIndent lc ++ rbrace :: rest)) := by
      rw [parseVal_congr_ws _ _
        (dumps v lvl ++ (dumpsEntries (PyDict.cons k2 w tw) lvl
          ++ (nlIndent lc ++ rbrace :: rest)))
        (skipWs_sp _)]
      exact roundVal v hcv (f + pyFuelD (PyDict.cons k2 w tw)) lvl _ hstop
    refine parseEntries_more _ _ _ k _ _ v _
      (nlIndent lvl ++ ('"' :: (encodeStrBody k2 ++ '"' :: ':' :: ' '
        :: (dumps w lvl ++ (dumpsEntries tw lvl ++ (nlIndent lc ++ rbrace :: rest))))))
      (PyDict.cons k2 w tw) rest h0 h1 h2 hv ?_ ?_
    · rw [show dumpsEntries (PyDict.cons k2 w tw) lvl
          = ',' :: nlIndent lvl ++ ('"' :: encodeStrBody k2 ++ ['"']) ++ ':' :: ' '
            :: dumps w lvl ++ dumpsEntries tw lvl from by simp [dumpsEntries]]
      simp only [List.cons_append, List.append_assoc, List.nil_append]
      rw [skipWs_cons_not_ws _ _ (by decide)]
    · rw [parseEntries_congr_ws _ _
        ('"' :: (encodeStrBody k2 ++ '"' :: ':' :: ' '
          :: (dumps w lvl ++ (dumpsEntries tw lvl ++ (nlIndent lc ++ rbrace :: rest)))))
        (by rw [skipWs_nlIndent])]
      rw [show (f + pyFuelD (PyDict.cons k2 w tw)) + pyFuel v
          = (f + pyFuel v) + pyFuelD (PyDict.cons k2 w tw) by omega]
      exact roundEntries k2 w tw hcs.1 hcs.2 (f + pyFuel v) lvl lc rest
termination_by k v tl hcv hct => 1 + sizeOf v + sizeOf tl
decreasing_by all_goals simp_wf <;> omega

end

mutual

theorem fuelBoundV : ∀ (p : PyVal) (lvl : Nat), pyFuel p ≤ (dumps p lvl).length + 1
  | PyVal.none, lvl => by simp [pyFuel, dumps, toL]
  | PyVal.bool true, lvl => by simp [pyFuel, dumps, toL]
  | PyVal.bool false, lvl => by simp [pyFuel, dumps, toL]
  | PyVal.int n, lvl => by simp [pyFuel]
  | PyVal.float m e, lvl => by simp [pyFuel]
  | PyVal.str s, lvl => by simp [pyFuel, dumps]
  | PyVal.list PyList.nil, lvl => by simp [pyFuel, pyFuelL, dumps, toL]
  | PyVal.list (PyList.cons v tl), lvl => by
    have h1 := fuelBoundV v (lvl + 1)
    have h2 := fuelBoundL tl (lvl + 1)
    simp only [pyFuel, pyFuelL, dumps, List.length_cons, List.length_append, nlIndent,
      List.length_replicate, List.length_singleton]
    omega
  | PyVal.dict PyDict.nil, lvl => by simp [pyFuel, pyFuelD, dumps]
  | PyVal.dict (PyDict.cons k v tl), lvl => by
    have h1 := fuelBoundV v (lvl + 1)
    have h2 := fuelBoundD tl (lvl + 1)
    simp only [pyFuel, pyFuelD, dumps, List.length_cons, List.length_append, nlIndent,
      List.length_replicate, List.length_singleton]
    omega
termination_by p lvl => sizeOf p
decreasing_by all_goals simp_wf <;> omega

theorem fuelBoundL : ∀ (xs : PyList) (lvl : Nat), pyFuelL xs ≤ (dumpsElems xs lvl).length
  | PyList.nil, lvl => by simp [pyFuelL, dumpsElems]
  | PyList.cons v tl, lvl => by
    have h1 := fuelBoundV v lvl
    have h2 := fuelBoundL tl lvl
    simp only [pyFuelL, dumpsElems, List.length_cons, List.length_append, nlIndent,
      List.length_replicate]
    omega
termination_by xs lvl => sizeOf xs
decreasing_by all_goals simp_wf <;> omega

theorem fuelBoundD : ∀ (xs : PyDict) (lvl : Nat), pyFuelD xs ≤ (dumpsEntries xs lvl).length
  | PyDict.nil, lvl => by simp [pyFuelD, dumpsEntries]
  | PyDict.cons k v tl, lvl => by
    have h1 := fuelBoundV v lvl
    have h2 := fuelBoundD tl lvl
    simp only [pyFuelD, dumpsEntries, List.length_cons, List.length_append, nlIndent,
      List.length_replicate, List.length_singleton]
    omega
termination_by xs lvl => sizeOf xs
decreasing_by all_goals simp_wf <;> omega

end

/-- The serializer model and the strict decoder model are mutually inverse
on canonical values. -/
theorem jsonLoads_dumps (p : PyVal) (hc : canonV p = true) :
    jsonLoads (dumps p 0) = some p := by
  unfold jsonLoads
  have hb : pyFuel p ≤ (dumps p 0).length + 1 := fuelBoundV p 0
  have hr := roundVal p hc ((dumps p 0).length + 1 - pyFuel p) 0 [] (by unfold numStop; trivial)
  rw [List.append_nil] at hr
  rw [show (dumps p 0).length + 1 = ((dumps p 0).length + 1 - pyFuel p) + pyFuel p by omega]
  rw [hr]
  simp [skipWs]

/-- Model of `builder.safe_json_dumps` (builder.py lines 53-70):
`json.dumps(data, ensure_ascii=False, indent=2)` followed by the three
script-safety text replacements, in source order. -/
def safe_json_dumps (data : PyVal) : List Char :=
  pyReplace (pyReplace (pyReplace (dumps data 0)
    (toL "</script>") (toL "<\\/script>"))
    (toL "<!--") (toL "<\\!--"))
    (toL "-->") (toL "--\\>")

/-- When none of the three replaced patterns occurs in the serialized JSON,
decoding the output of `safe_json_dumps` gives back the input exactly. -/
theorem safe_json_dumps_roundtrip (p : PyVal) (hc : canonV p = true)
    (h1 : occurs (toL "</script>") (dumps p 0) = false)
    (h2 : occurs (toL "<!--") (dumps p 0) = false)
    (h3 : occurs (toL "-->") (dumps p 0) = false) :
    jsonLoads (safe_json_dumps p) = some p := by
  unfold safe_json_dumps
  rw [pyReplace_of_not_occurs _ _ _ h1, pyReplace_of_not_occurs _ _ _ h2,
    pyReplace_of_not_occurs _ _ _ h3]
  exact jsonLoads_dumps p hc

/-- Days in a month, with Gregorian leap years, as `datetime` validates. -/
def monthLen (y m : Nat) : Nat :=
  if m = 2 then (if (y % 4 = 0 ∧ y % 100 ≠ 0) ∨ y % 400 = 0 then 29 else 28)
  else if m = 4 ∨ m = 6 ∨ m = 9 ∨ m = 11 then 30 else 31

/-- Two leading decimal digits. -/
def digit2 : List Char → Option (Nat × List Char)
  | a :: b :: r =>
    if isDig a && isDig b then some (digVal a * 10 + digVal b, r) else Option.none
  | _ => Option.none

/-- Four leading decimal digits. -/
def digit4 : List Char → Option (Nat × List Char)
  | a :: b :: c :: d :: r =>
    if isDig a && isDig b && isDig c && isDig d then
      some (((digVal a * 10 + digVal b) * 10 + digVal c) * 10 + digVal d, r)
    else Option.none
  | _ => Option.none

/-- A `±HH:MM` UTC offset, or nothing. -/
def offsetOk : List Char → Bool
  | [] => true
  | c :: r =>
    if c = '+' || c = '-' then
      match digit2 r with
      | some (hh, ':' :: r2) =>
        match digit2 r2 with
        | some (mm, []) => hh ≤ 23 && mm ≤ 59
        | _ => false
      | _ => false
    else false

/-- Seconds, optional fraction (3 or 6 digits), then optional offset. -/
def secTail : List Char → Bool
  | ':' :: r =>
    (match digit2 r with
    | some (ss, r2) =>
      ss ≤ 59 &&
        (match r2 with
        | '.' :: r3 =>
          ((spanDigs r3).1.length = 3 || (spanDigs r3).1.length = 6) && offsetOk (spanDigs r3).2
        | r2 => offsetOk r2)
    | Option.none => false)
  | r => offsetOk r

/-- An ISO time-of-day `HH:MM[:SS[.fff[fff]]][±HH:MM]`. -/
def timeOk (t : List Char) : Bool :=
  match digit2 t with
  | some (hh, ':' :: r) =>
    hh ≤ 23 &&
      (match digit2 r with
      | some (mm, r2) => mm ≤ 59 && secTail r2
      | Option.none => false)
  | _ => false

/-- Model of `datetime.fromisoformat`: `YYYY-MM-DD` with validated ranges,
optionally a single separator character and a time-of-day with offset.
Returns the date triple. -/
def isoParse (s : List Char) : Option (Nat × Nat × Nat) :=
  match digit4 s with
  | some (y, '-' :: r1) =>
    match digit2 r1 with
    | some (m, '-' :: r2) =>
      match digit2 r2 with
      | some (d, r3) =>
        if 1 ≤ y ∧ 1 ≤ m ∧ m ≤ 12 ∧ 1 ≤ d ∧ d ≤ monthLen y m then
          match r3 with
          | [] => some (y, m, d)
          | _ :: t => if timeOk t then some (y, m, d) else Option.none
        else Option.none
      | _ => Option.none
    | _ => Option.none
  | _ => Option.none

/-- Zero-padded decimal of fixed width, as `strftime` prints date parts. -/
def padNum (n w : Nat) : List Char := padLeft (natDigits n) w

/-- The `%Y-%m-%d` rendering of a date triple. -/
def fmtYMD (y m d : Nat) : List Char :=
  padNum y 4 ++ '-' :: padNum m 2 ++ '-' :: padNum d 2

/-- The regex `\d{4}-\d{2}-\d{2}` tried at the current position only. -/
def matchYMDAt : List Char → Option (List Char)
  | a :: b :: c :: d :: '-' :: e :: f :: '-' :: g :: h :: _ =>
    if isDig a && isDig b && isDig c && isDig d && isDig e && isDig f && isDig g && isDig h
    then some [a, b, c, d, '-', e, f, '-', g, h]
    else Option.none
  | _ => Option.none

/-- Leftmost match of `re.search(r'(\d{4}-\d{2}-\d{2})', s)`. -/
def firstYMD : List Char → Option (List Char)
  | [] => Option.none
  | c :: r =>
    match matchYMDAt (c :: r) with
    | some t => some t
    | Option.none => firstYMD r

/-- The date-normalization block shared verbatim by `app.format_paper_data`
(app.py lines 52-61) and `builder.format_paper_data` (builder.py lines
141-150): ISO parse after replacing `Z` with `+00:00`, else first
`YYYY-MM-DD` substring of the original text, else the text unchanged. -/
def normDateStr (s : List Char) : List Char :=
  match isoParse (pyReplace s (toL "Z") (toL "+00:00")) with
  | some (y, m, d) => fmtYMD y m d
  | Option.none =>
    match firstYMD s with
    | some t => t
    | Option.none => s

/-- The whole `published_date` handling, including the falsy guard
(`if published_date:`): NULL and the empty string pass through unchanged. -/
def normDate (v : Option (List Char)) : PyVal :=
  match v with
  | Option.none => PyVal.none
  | some s => if s = [] then PyVal.str [] else PyVal.str (normDateStr s)

/-- CPython `html.escape(s, quote=True)`: the five replacements in source
order (`&`, `<`, `>`, `"`, `'`). -/
def htmlEscape (s : List Char) : List Char :=
  pyReplace (pyReplace (pyReplace (pyReplace (pyReplace s
    (toL "&") (toL "&amp;"))
    (toL "<") (toL "&lt;"))
    (toL ">") (toL "&gt;"))
    (toL "\"") (toL "&quot;"))
    (toL "'") (toL "&#x27;")

/-- Characters of a run not containing a dollar sign. -/
def nonDollar (c : Char) : Bool := !(c == '$')

/-- The regex `\$\$[^$]+\$\$` tried at the current position: returns the
whole match, the group, and the remainder. -/
def matchBlockAt : List Char → Option (List Char × List Char × List Char)
  | '$' :: '$' :: r =>
    let run := r.takeWhile nonDollar
    if run = [] then Option.none
    else
      match r.dropWhile nonDollar with
      | '$' :: '$' :: u => some ('$' :: '$' :: run ++ ['$', '$'], run, u)
      | _ => Option.none
  | _ => Option.none

/-- The regex `\$[^$]+\$` tried at the current position. -/
def matchInlineAt : List Char → Option (List Char × List Char × List Char)
  | '$' :: r =>
    let run := r.takeWhile nonDollar
    if run = [] then Option.none
    else
      match r.dropWhile nonDollar with
      | '$' :: u => some ('$' :: run ++ ['$'], run, u)
      | _ => Option.none
  | _ => Option.none

/-- Non-overlapping leftmost matches of the block-math regex
(`re.finditer(r'\$\$[^$]+\$\$', text)`), as (whole, group) pairs. -/
def scanBlocks : Nat → List Char → List (List Char × List Char)
  | 0, _ => []
  | _ + 1, [] => []
  | fuel + 1, c :: r =>
    match matchBlockAt (c :: r) with
    | some (whole, content, u) => (whole, content) :: scanBlocks fuel u
    | Option.none => scanBlocks fuel r

/-- Non-overlapping leftmost matches of the inline-math regex
(`re.finditer(r'\$[^$]+\$', text)`). -/
def scanInlines : Nat → List Char → List (List Char × List Char)
  | 0, _ => []
  | _ + 1, [] => []
  | fuel + 1, c :: r =>
    match matchInlineAt (c :: r) with
    | some (whole, content, u) => (whole, content) :: scanInlines fuel u
    | Option.none => scanInlines fuel r

/-- One placeholder token, e.g. `__LATEX_BLOCK_0__`. -/
def phName (pre : String) (i : Nat) : List Char := toL pre ++ natDigits i ++ toL "__"

/-- The `re.sub(r'\$([^$]+)\$', r'\\(\1\\)', text)` pass: rewrite each
non-overlapping inline math span to `\(...\)`. -/
def inlineSub : Nat → List Char → List Char
  | 0, s => s
  | _ + 1, [] => []
  | fuel + 1, c :: r =>
    match matchInlineAt (c :: r) with
    | some (_, content, u) => toL "\\(" ++ content ++ toL "\\)" ++ inlineSub fuel u
    | Option.none => c :: inlineSub fuel r

/-- Model of `StaticHtmlGenerator.escape_html_text` (generate_static_html.py
lines 48-77, identical in process_papers.py): block and inline math spans
found on snapshots of the text are replaced by placeholder tokens (a
replace-all per found span, as the source does), the remainder is
HTML-escaped, and the spans are restored in insertion order. -/
def escape_html_text (s : List Char) : List Char :=
  let blocks := scanBlocks s.length s
  let s1 := blocks.enum.foldl
    (fun acc iw => pyReplace acc iw.2.1 (phName "__LATEX_BLOCK_" iw.1)) s
  let inls := scanInlines s1.length s1
  let s2 := inls.enum.foldl
    (fun acc iw => pyReplace acc iw.2.1 (phName "__LATEX_INLINE_" iw.1)) s1
  let s3 := htmlEscape s2
  let s4 := blocks.enum.foldl
    (fun acc iw => pyReplace acc (phName "__LATEX_BLOCK_" iw.1) iw.2.1) s3
  inls.enum.foldl
    (fun acc iw => pyReplace acc (phName "__LATEX_INLINE_" iw.1) iw.2.1) s4

/-- Model of `StaticHtmlGenerator.convert_latex_to_mathjax`
(generate_static_html.py lines 79-100, identical in process_papers.py):
display spans are protected by placeholders, inline spans are rewritten to
`\(...\)`, and the placeholders are replaced by `\[...\]`. -/
def convert_latex_to_mathjax (s : List Char) : List Char :=
  let ds := scanBlocks s.length s
  let s1 := ds.enum.foldl
    (fun acc iw => pyReplace acc iw.2.1 (phName "__DISPLAY_MATH_" iw.1)) s
  let s2 := inlineSub s1.length s1
  ds.enum.foldl
    (fun acc iw => pyReplace acc (phName "__DISPLAY_MATH_" iw.1)
      (toL "\\[" ++ iw.2.2 ++ toL "\\]")) s2

/-- Model of `process_text_field` (generate_static_html.py lines 102-113,
identical in process_papers.py): HTML escaping with math protection, then
math-delimiter conversion. -/
def process_text_field (s : List Char) : List Char :=
  convert_latex_to_mathjax (escape_html_text s)

/-- A SQLite column value as fetched by `sqlite3.Row` (no BLOB columns occur
in this schema). `real m e` is the exact decimal `m / 10 ^ e`. -/
inductive DbVal where
  | null : DbVal
  | int (n : Int) : DbVal
  | real (m : Int) (e : Nat) : DbVal
  | text (s : List Char) : DbVal
  deriving DecidableEq

/-- The Python value a fetched column presents to the formatters. -/
def dbToPy : DbVal → PyVal
  | DbVal.null => PyVal.none
  | DbVal.int n => PyVal.int n
  | DbVal.real m e => PyVal.float m e
  | DbVal.text s => PyVal.str s

/-- Build an ordered dict from an association list (a Python dict literal). -/
def PyDict.ofList : List (List Char × PyVal) → PyDict
  | [] => PyDict.nil
  | (k, v) :: t => PyDict.cons k v (PyDict.ofList t)

/-- Model of `builder.safe_json_escape` (builder.py lines 30-50): `None` is
returned as `None`, non-strings as themselves, and strings unchanged —
every replacement in the body is commented out in the source. -/
def safe_json_escape (text : PyVal) : PyVal :=
  match text with
  | PyVal.none => PyVal.none
  | PyVal.str s => PyVal.str s
  | t => t

/-- Model of `parse_json_field`, identical in app.py lines 28-36 and
builder.py lines 88-97: a falsy value (NULL, empty string, 0, 0.0) gives
`[]`; a non-empty string is `json.loads`-decoded, any decode failure giving
`[]`; a truthy non-string raises `TypeError` inside the `try`, also caught,
giving `[]`. -/
def parse_json_field (field_value : DbVal) : PyVal :=
  match field_value with
  | DbVal.text s =>
    if s = [] then PyVal.list PyList.nil
    else
      match jsonLoads s with
      | some v => v
      | Option.none => PyVal.list PyList.nil
  | _ => PyVal.list PyList.nil

/-- The characters of a string as one-character strings, the way Python
iterates over a `str`. -/
def strElems : List Char → PyList
  | [] => PyList.nil
  | c :: t => PyList.cons (PyVal.str [c]) (strElems t)

/-- The keys of a dict as a list of strings, the way Python iterates over a
`dict`. -/
def dictKeys : PyDict → PyList
  | PyDict.nil => PyList.nil
  | PyDict.cons k _ tl => PyList.cons (PyVal.str k) (dictKeys tl)

/-- Python iteration over a value: lists yield their elements, strings
their characters, dicts their keys; every other value raises `TypeError`. -/
def pyIter : PyVal → Option PyList
  | PyVal.list xs => some xs
  | PyVal.str s => some (strElems s)
  | PyVal.dict d => some (dictKeys d)
  | _ => Option.none

/-- ASCII whitespace stripped by Python `float(str)`. -/
def isPyWs (c : Char) : Bool :=
  c = ' ' || c = '\t' || c = '\n' || c = '\r' || c = Char.ofNat 11 || c = Char.ofNat 12

/-- The unsigned body accepted by `float(str)`: digits with an optional
fractional part (this model leaves out exponents, `inf` / `nan` and digit
underscores, which do not occur in the stored data). -/
def pyFloatBody (t : List Char) : Option (Nat × Nat) :=
  let (ip, t1) := spanDigs t
  match t1 with
  | [] => if ip = [] then Option.none else some (digitsToNat ip, 0)
  | '.' :: t2 =>
    let (fp, t3) := spanDigs t2
    if t3 = [] && !(ip = [] && fp = []) then some (digitsToNat (ip ++ fp), fp.length)
    else Option.none
  | _ => Option.none

/-- Python `float(str)`: optional surrounding whitespace and sign around
the numeric body; anything else raises `ValueError`. -/
def pyFloatStr (s0 : List Char) : Option (Int × Nat) :=
  let s := ((s0.dropWhile isPyWs).reverse.dropWhile isPyWs).reverse
  match s with
  | '-' :: t => (pyFloatBody t).map (fun p => (-(p.1 : Int), p.2))
  | '+' :: t => (pyFloatBody t).map (fun p => ((p.1 : Int), p.2))
  | t => (pyFloatBody t).map (fun p => ((p.1 : Int), p.2))

/-- `float` applied to a string column value, in canonical decimal form. -/
def floatOfText (s : List Char) : Option PyVal :=
  (pyFloatStr s).map (fun p =>
    PyVal.float (canonFloat p.1 p.2).1 (canonFloat p.1 p.2).2)

/-- Model of `float(row[c]) if row[c] is not None else 0.0` (builder.py
lines 165-169 and 194): NULL defaults to `0.0`, numbers are converted to
float, and a string is parsed by `float()`, raising (`Option.none`) when
malformed. -/
def coerceScore (v : DbVal) : Option PyVal :=
  match v with
  | DbVal.null => some (PyVal.float 0 0)
  | DbVal.int n => some (PyVal.float n 0)
  | DbVal.real m e => some (PyVal.float m e)
  | DbVal.text s => floatOfText s

/-- Model of `row[c] if row[c] is not None else 0` (builder.py lines
191-195) for the integer count columns. -/
def defaultZero (v : DbVal) : PyVal :=
  match v with
  | DbVal.null => PyVal.int 0
  | v => dbToPy v

/-- Model of the `escaped_author_h_indexes` loop (builder.py lines
130-138): entries that are dicts are rebuilt with exactly the keys `name`,
`h_index`, `profile_url` (defaults `''`, `0`, `''`); other entries are
dropped. -/
def rebuildAhi : PyList → PyList
  | PyList.nil => PyList.nil
  | PyList.cons (PyVal.dict d) t =>
    PyList.cons
      (PyVal.dict (PyDict.ofList
        [(toL "name", safe_json_escape (dictGetD d (toL "name") (PyVal.str []))),
         (toL "h_index", dictGetD d (toL "h_index") (PyVal.int 0)),
         (toL "profile_url", safe_json_escape (dictGetD d (toL "profile_url") (PyVal.str [])))]))
      (rebuildAhi t)
  | PyList.cons _ t => rebuildAhi t

/-- A row of the `papers` table, in the column order of the SELECT lists of
app.py and builder.py. `published_date` is a TEXT column modelled as NULL
or a string (on a non-string truthy value both formatters raise
identically, in the uncaught `re.search` fallback). -/
structure Row where
  id : DbVal
  title : DbVal
  authors : DbVal
  categories : DbVal
  abstract : DbVal
  published_date : Option (List Char)
  arxiv_url : DbVal
  pdf_url : DbVal
  scraper_status : DbVal
  intro_status : DbVal
  embedding_status : DbVal
  rlhf_score : DbVal
  weak_supervision_score : DbVal
  diffusion_reasoning_score : DbVal
  distributed_training_score : DbVal
  datasets_score : DbVal
  llm_validation_status : DbVal
  rlhf_relevance : DbVal
  weak_supervision_relevance : DbVal
  diffusion_reasoning_relevance : DbVal
  distributed_training_relevance : DbVal
  datasets_relevance : DbVal
  rlhf_justification : DbVal
  weak_supervision_justification : DbVal
  diffusion_reasoning_justification : DbVal
  distributed_training_justification : DbVal
  datasets_justification : DbVal
  llm_score_status : DbVal
  summary : DbVal
  novelty_score : DbVal
  novelty_justification : DbVal
  impact_score : DbVal
  impact_justification : DbVal
  recommendation_score : DbVal
  recommendation_justification : DbVal
  h_index_status : DbVal
  semantic_scholar_url : DbVal
  total_authors : DbVal
  authors_found : DbVal
  highest_h_index : DbVal
  average_h_index : DbVal
  notable_authors_count : DbVal
  author_h_indexes : DbVal
  deriving DecidableEq

/-- Model of `app.format_paper_data` (app.py lines 38-114): the dict
literal of lines 64-108. JSON sub-fields are parsed, `published_date` is
normalized, and every other column is passed through raw. Under the `Row`
column model no statement in the `try` block can raise, so the function is
total and the `except` branch returning `None` is unreachable. -/
def app_paper_dict (r : Row) : PyDict :=
  let authors := parse_json_field r.authors
  let categories := parse_json_field r.categories
  let author_h_indexes := parse_json_field r.author_h_indexes
  PyDict.ofList
    [(toL "id", dbToPy r.id),
     (toL "title", dbToPy r.title),
     (toL "authors", authors),
     (toL "categories", categories),
     (toL "abstract", dbToPy r.abstract),
     (toL "published_date", normDate r.published_date),
     (toL "arxiv_url", dbToPy r.arxiv_url),
     (toL "pdf_url", dbToPy r.pdf_url),
     (toL "scraper_status", dbToPy r.scraper_status),
     (toL "intro_status", dbToPy r.intro_status),
     (toL "embedding_status", dbToPy r.embedding_status),
     (toL "rlhf_score", dbToPy r.rlhf_score),
     (toL "weak_supervision_score", dbToPy r.weak_supervision_score),
     (toL "diffusion_reasoning_score", dbToPy r.diffusion_reasoning_score),
     (toL "distributed_training_score", dbToPy r.distributed_training_score),
     (toL "datasets_score", dbToPy r.datasets_score),
     (toL "llm_validation_status", dbToPy r.llm_validation_status),
     (toL "rlhf_relevance", dbToPy r.rlhf_relevance),
     (toL "weak_supervision_relevance", dbToPy r.weak_supervision_relevance),
     (toL "diffusion_reasoning_relevance", dbToPy r.diffusion_reasoning_relevance),
     (toL "distributed_training_relevance", dbToPy r.distributed_training_relevance),
     (toL "datasets_relevance", dbToPy r.datasets_relevance),
     (toL "rlhf_justification", dbToPy r.rlhf_justification),
     (toL "weak_supervision_justification", dbToPy r.weak_supervision_justification),
     (toL "diffusion_reasoning_justification", dbToPy r.diffusion_reasoning_justification),
     (toL "distributed_training_justification", dbToPy r.distributed_training_justification),
     (toL "datasets_justification", dbToPy r.datasets_justification),
     (toL "llm_score_status", dbToPy r.llm_score_status),
     (toL "summary", dbToPy r.summary),
     (toL "novelty_score", dbToPy r.novelty_score),
     (toL "novelty_justification", dbToPy r.novelty_justification),
     (toL "impact_score", dbToPy r.impact_score),
     (toL "impact_justification", dbToPy r.impact_justification),
     (toL "recommendation_score", dbToPy r.recommendation_score),
     (toL "recommendation_justification", dbToPy r.recommendation_justification),
     (toL "h_index_status", dbToPy r.h_index_status),
     (toL "semantic_scholar_url", dbToPy r.semantic_scholar_url),
     (toL "total_authors", dbToPy r.total_authors),
     (toL "authors_found", dbToPy r.authors_found),
     (toL "highest_h_index", dbToPy r.highest_h_index),
     (toL "average_h_index", dbToPy r.average_h_index),
     (toL "notable_authors_count", dbToPy r.notable_authors_count),
     (toL "author_h_indexes", author_h_indexes)]

/-- The paper record served by the live API path. -/
def app_format_paper_data (r : Row) : PyVal := PyVal.dict (app_paper_dict r)

/-- The dict literal of builder.py lines 153-197, given the already-escaped
author/category/h-index sequences and the already-coerced float scores. -/
def builder_paper_dict (r : Row)
    (escaped_authors escaped_categories escaped_author_h_indexes : PyList)
    (s1 s2 s3 s4 s5 avg : PyVal) : PyDict :=
  PyDict.ofList
    [(toL "id", dbToPy r.id),
     (toL "title", safe_json_escape (dbToPy r.title)),
     (toL "authors", PyVal.list escaped_authors),
     (toL "categories", PyVal.list escaped_categories),
     (toL "abstract", safe_json_escape (dbToPy r.abstract)),
     (toL "published_date", normDate r.published_date),
     (toL "arxiv_url", dbToPy r.arxiv_url),
     (toL "pdf_url", dbToPy r.pdf_url),
     (toL "scraper_status", dbToPy r.scraper_status),
     (toL "intro_status", dbToPy r.intro_status),
     (toL "embedding_status", dbToPy r.embedding_status),
     (toL "rlhf_score", s1),
     (toL "weak_supervision_score", s2),
     (toL "diffusion_reasoning_score", s3),
     (toL "distributed_training_score", s4),
     (toL "datasets_score", s5),
     (toL "llm_validation_status", dbToPy r.llm_validation_status),
     (toL "rlhf_relevance", dbToPy r.rlhf_relevance),
     (toL "weak_supervision_relevance", dbToPy r.weak_supervision_relevance),
     (toL "diffusion_reasoning_relevance", dbToPy r.diffusion_reasoning_relevance),
     (toL "distributed_training_relevance", dbToPy r.distributed_training_relevance),
     (toL "datasets_relevance", dbToPy r.datasets_relevance),
     (toL "rlhf_justification", safe_json_escape (dbToPy r.rlhf_justification)),
     (toL "weak_supervision_justification", safe_json_escape (dbToPy r.weak_supervision_justification)),
     (toL "diffusion_reasoning_justification", safe_json_escape (dbToPy r.diffusion_reasoning_justification)),
     (toL "distributed_training_justification", safe_json_escape (dbToPy r.distributed_training_justification)),
     (toL "datasets_justification", safe_json_escape (dbToPy r.datasets_justification)),
     (toL "llm_score_status", dbToPy r.llm_score_status),
     (toL "summary", safe_json_escape (dbToPy r.summary)),
     (toL "novelty_score", dbToPy r.novelty_score),
     (toL "novelty_justification", safe_json_escape (dbToPy r.novelty_justification)),
     (toL "impact_score", dbToPy r.impact_score),
     (toL "impact_justification", safe_json_escape (dbToPy r.impact_justification)),
     (toL "recommendation_score", dbToPy r.recommendation_score),
     (toL "recommendation_justification", safe_json_escape (dbToPy r.recommendation_justification)),
     (toL "h_index_status", dbToPy r.h_index_status),
     (toL "semantic_scholar_url", dbToPy r.semantic_scholar_url),
     (toL "total_authors", defaultZero r.total_authors),
     (toL "authors_found", defaultZero r.authors_found),
     (toL "highest_h_index", defaultZero r.highest_h_index),
     (toL "average_h_index", avg),
     (toL "notable_authors_count", defaultZero r.notable_authors_count),
     (toL "author_h_indexes", PyVal.list escaped_author_h_indexes)]

/-- Model of `builder.format_paper_data` (builder.py lines 100-203). The
list comprehensions over the parsed `authors` / `categories` /
`author_h_indexes` values raise `TypeError` on a non-iterable parse result,
and the `float()` coercions raise on a malformed string; any exception is
re-raised by the function (`Except.error`). Otherwise the dict literal is
produced. -/
def builder_format_paper_data (r : Row) : Except Unit PyVal :=
  match pyIter (parse_json_field r.authors),
        pyIter (parse_json_field r.categories),
        pyIter (parse_json_field r.author_h_indexes),
        coerceScore r.rlhf_score,
        coerceScore r.weak_supervision_score,
        coerceScore r.diffusion_reasoning_score,
        coerceScore r.distributed_training_score,
        coerceScore r.datasets_score,
        coerceScore r.average_h_index with
  | some authors, some categories, some author_h_indexes,
    some s1, some s2, some s3, some s4, some s5, some avg =>
    Except.ok (PyVal.dict (builder_paper_dict r
      (PyList.map safe_json_escape authors)
      (PyList.map safe_json_escape categories)
      (rebuildAhi author_h_indexes) s1 s2 s3 s4 s5 avg))
  | _, _, _, _, _, _, _, _, _ => Except.error ()

/-- The JSON envelope of a successful `/api/papers` response. -/
structure Envelope where
  papers : List PyVal
  page : Int
  limit : Int
  total_papers : Int
  total_pages : Int
  has_next : Bool
  has_prev : Bool
  deriving DecidableEq

/-- A `/api/papers` outcome: a 400 error body or a 200 envelope. -/
inductive PagResult where
  | err (msg : List Char) : PagResult
  | okR (env : Envelope) : PagResult
  deriving DecidableEq

/-- The error message f-string of app.py line 234. -/
def oobMsg (page total_pages : Int) : List Char :=
  toL "Page " ++ intRepr page ++ toL " is out of bounds. Total pages: " ++
    intRepr total_pages

/-- Model of the pagination logic of `app.get_papers` (app.py lines
181-281), after date validation and with the database abstracted to the
ordered list of rows matching the date: parameter guards, the
`total_papers == 0` early return, ceiling division for `total_pages`, the
out-of-bounds rejection, and the `LIMIT ? OFFSET ?` slice. The formatter is
total and returns a non-empty (truthy) dict under the `Row` model, so the
`if paper_data:` filter keeps every formatted row. All quantities reaching
the `//` are positive, where Python floor division and `Int.ediv` agree. -/
def get_papers (rows : List Row) (page limit : Int) : PagResult :=
  if page < 1 then PagResult.err (toL "Page must be >= 1")
  else if limit < 1 ∨ limit > 100 then
    PagResult.err (toL "Limit must be between 1 and 100")
  else
    let total : Int := rows.length
    if total = 0 then PagResult.okR ⟨[], page, limit, 0, 0, false, false⟩
    else
      let total_pages := (total + limit - 1) / limit
      if page > total_pages then PagResult.err (oobMsg page total_pages)
      else
        PagResult.okR
          ⟨((rows.drop ((page - 1) * limit).toNat).take limit.toNat).map
              app_format_paper_data,
           page, limit, total, total_pages,
           decide (page < total_pages), decide (page > 1)⟩

/-- The `strptime` `%m` directive: regex `1[0-2]|0[1-9]|[1-9]`, preferring
the two-digit alternatives. -/
def strpMonth : List Char → Option (Nat × List Char)
  | c1 :: c2 :: t =>
    if isDig c1 && isDig c2 && decide (1 ≤ digVal c1 * 10 + digVal c2)
        && decide (digVal c1 * 10 + digVal c2 ≤ 12)
    then some (digVal c1 * 10 + digVal c2, t)
    else if isDig c1 && decide (1 ≤ digVal c1) then some (digVal c1, c2 :: t)
    else Option.none
  | [c1] =>
    if isDig c1 && decide (1 ≤ digVal c1) then some (digVal c1, [])
    else Option.none
  | [] => Option.none

/-- The `strptime` `%d` directive: regex `3[01]|[12]\d|0[1-9]|[1-9]`,
preferring the two-digit alternatives. -/
def strpDay : List Char → Option (Nat × List Char)
  | c1 :: c2 :: t =>
    if isDig c1 && isDig c2 && decide (1 ≤ digVal c1 * 10 + digVal c2)
        && decide (digVal c1 * 10 + digVal c2 ≤ 31)
    then some (digVal c1 * 10 + digVal c2, t)
    else if isDig c1 && decide (1 ≤ digVal c1) then some (digVal c1, c2 :: t)
    else Option.none
  | [c1] =>
    if isDig c1 && decide (1 ≤ digVal c1) then some (digVal c1, [])
    else Option.none
  | [] => Option.none

/-- `datetime.strptime(s, '%Y-%m-%d')`: four year digits, dashes, month and
day directives, the whole string consumed, and the `datetime` constructor
validating the day against the month length and `MINYEAR = 1`. -/
def strptimeYMD (s : List Char) : Option (Nat × Nat × Nat) :=
  match digit4 s with
  | some (y, '-' :: t1) =>
    match strpMonth t1 with
    | some (m, '-' :: t2) =>
      match strpDay t2 with
      | some (d, []) =>
        if 1 ≤ y ∧ d ≤ monthLen y m then some (y, m, d) else Option.none
      | _ => Option.none
    | _ => Option.none
  | _ => Option.none

/-- The English month names used by `strftime('%B')` in the C locale. -/
def monthName : Nat → List Char
  | 1 => toL "January"
  | 2 => toL "February"
  | 3 => toL "March"
  | 4 => toL "April"
  | 5 => toL "May"
  | 6 => toL "June"
  | 7 => toL "July"
  | 8 => toL "August"
  | 9 => toL "September"
  | 10 => toL "October"
  | 11 => toL "November"
  | 12 => toL "December"
  | _ => []

/-- Model of `builder.format_date_for_title` (builder.py lines 297-304):
`strptime('%Y-%m-%d')` then `strftime('%d %B %Y')` (zero-padded day, full
month name, unpadded year as on glibc); on `ValueError` the input is
returned unchanged. -/
def format_date_for_title (date_str : List Char) : List Char :=
  match strptimeYMD date_str with
  | some (y, m, d) => padNum d 2 ++ ' ' :: (monthName m ++ ' ' :: natDigits y)
  | Option.none => date_str

/-- Model of `builder.generate_static_page` (builder.py lines 307-334):
format the date, serialize the payload, then four `str.replace` passes over
the template — three title placeholders and the `<!--DATA_HERE-->` data
placeholder. `str.replace` on an absent placeholder is the identity; no
branch of the function checks for its presence, so nothing can raise and
the `except` re-raise path is unreachable. -/
def generate_static_page (date : List Char) (paper_data : PyVal)
    (template_content : List Char) : List Char :=
  let formatted_date := format_date_for_title date
  let page_title := toL "Papers Published on " ++ formatted_date
  let json_data := safe_json_dumps paper_data
  let h1 := pyReplace template_content (toL "PLACEHOLDER_TITLE") formatted_date
  let h2 := pyReplace h1 (toL "PLACEHOLDER_MOBILE_TITLE") page_title
  let h3 := pyReplace h2 (toL "PLACEHOLDER_DESKTOP_TITLE") page_title
  pyReplace h3 (toL "<!--DATA_HERE-->") json_data

/-- Lookup of a key in the value produced by the static-build formatter;
`Option.none` when the build raised. -/
def builderGet (r : Row) (k : List Char) : Option PyVal :=
  match builder_format_paper_data r with
  | Except.ok v => pyGet v k
  | Except.error _ => Option.none

/-- The 43 keys of the paper record schema, in emission order. -/
def schemaKeys : List (List Char) :=
  [toL "id", toL "title", toL "authors", toL "categories", toL "abstract",
   toL "published_date", toL "arxiv_url", toL "pdf_url",
   toL "scraper_status", toL "intro_status", toL "embedding_status",
   toL "rlhf_score", toL "weak_supervision_score",
   toL "diffusion_reasoning_score", toL "distributed_training_score",
   toL "datasets_score", toL "llm_validation_status", toL "rlhf_relevance",
   toL "weak_supervision_relevance", toL "diffusion_reasoning_relevance",
   toL "distributed_training_relevance", toL "datasets_relevance",
   toL "rlhf_justification", toL "weak_supervision_justification",
   toL "diffusion_reasoning_justification",
   toL "distributed_training_justification", toL "datasets_justification",
   toL "llm_score_status", toL "summary", toL "novelty_score",
   toL "novelty_justification", toL "impact_score",
   toL "impact_justification", toL "recommendation_score",
   toL "recommendation_justification", toL "h_index_status",
   toL "semantic_scholar_url", toL "total_authors", toL "authors_found",
   toL "highest_h_index", toL "average_h_index",
   toL "notable_authors_count", toL "author_h_indexes"]

/-- An all-NULL row: every column NULL, `published_date` NULL. -/
def row0 : Row :=
  Row.mk DbVal.null DbVal.null DbVal.null DbVal.null DbVal.null Option.none
    DbVal.null DbVal.null DbVal.null DbVal.null DbVal.null DbVal.null
    DbVal.null DbVal.null DbVal.null DbVal.null DbVal.null DbVal.null
    DbVal.null DbVal.null DbVal.null DbVal.null DbVal.null DbVal.null
    DbVal.null DbVal.null DbVal.null DbVal.null DbVal.null DbVal.null
    DbVal.null DbVal.null DbVal.null DbVal.null DbVal.null DbVal.null
    DbVal.null DbVal.null DbVal.null DbVal.null DbVal.null DbVal.null
    DbVal.null

/-- An all-NULL row whose title holds raw HTML next to LaTeX delimiters. -/
def rowT : Row :=
  Row.mk DbVal.null (DbVal.text (toL "<b>$x$")) DbVal.null DbVal.null
    DbVal.null Option.none
    DbVal.null DbVal.null DbVal.null DbVal.null DbVal.null DbVal.null
    DbVal.null DbVal.null DbVal.null DbVal.null DbVal.null DbVal.null
    DbVal.null DbVal.null DbVal.null DbVal.null DbVal.null DbVal.null
    DbVal.null DbVal.null DbVal.null DbVal.null DbVal.null DbVal.null
    DbVal.null DbVal.null DbVal.null DbVal.null DbVal.null DbVal.null
    DbVal.null DbVal.null DbVal.null DbVal.null DbVal.null DbVal.null
    DbVal.null

/-- Twenty-five rows for one date, as in the pagination example. -/
def rows25 : List Row := List.replicate 25 row0

/-- Every branch of `safe_json_escape` returns its argument: all actual
replacements in the source are commented out. -/
theorem safe_json_escape_id (v : PyVal) : safe_json_escape v = v := by
  cases v <;> rfl

/-- Mapping the identity escaping over a list changes nothing. -/
theorem map_safe_json_escape : ∀ xs : PyList, PyList.map safe_json_escape xs = xs
  | PyList.nil => rfl
  | PyList.cons v tl => by
    rw [PyList.map, safe_json_escape_id, map_safe_json_escape tl]

/-- The `else 0` default is not taken on a non-NULL column. -/
theorem defaultZero_ne_null (v : DbVal) (h : v ≠ DbVal.null) :
    defaultZero v = dbToPy v := by
  cases v with
  | null => exact absurd rfl h
  | _ => rfl

/-- A successful static-build formatting inverts to its nine fallible
sub-results and the dict literal built from them. -/
theorem builder_format_ok (r : Row) (v : PyVal)
    (h : builder_format_paper_data r = Except.ok v) :
    ∃ axs cxs hxs s1 s2 s3 s4 s5 avg,
      pyIter (parse_json_field r.authors) = some axs ∧
      pyIter (parse_json_field r.categories) = some cxs ∧
      pyIter (parse_json_field r.author_h_indexes) = some hxs ∧
      coerceScore r.rlhf_score = some s1 ∧
      coerceScore r.weak_supervision_score = some s2 ∧
      coerceScore r.diffusion_reasoning_score = some s3 ∧
      coerceScore r.distributed_training_score = some s4 ∧
      coerceScore r.datasets_score = some s5 ∧
      coerceScore r.average_h_index = some avg ∧
      v = PyVal.dict (builder_paper_dict r
        (PyList.map safe_json_escape axs)
        (PyList.map safe_json_escape cxs)
        (rebuildAhi hxs) s1 s2 s3 s4 s5 avg) := by
  rw [builder_format_paper_data] at h
  rcases hA : pyIter (parse_json_field r.authors) with _ | axs <;> rw [hA] at h
  case none => simp at h
  rcases hC : pyIter (parse_json_field r.categories) with _ | cxs <;> rw [hC] at h
  case none => simp at h
  rcases hH : pyIter (parse_json_field r.author_h_indexes) with _ | hxs <;> rw [hH] at h
  case none => simp at h
  rcases h1 : coerceScore r.rlhf_score with _ | s1 <;> rw [h1] at h
  case none => simp at h
  rcases h2 : coerceScore r.weak_supervision_score with _ | s2 <;> rw [h2] at h
  case none => simp at h
  rcases h3 : coerceScore r.diffusion_reasoning_score with _ | s3 <;> rw [h3] at h
  case none => simp at h
  rcases h4 : coerceScore r.distributed_training_score with _ | s4 <;> rw [h4] at h
  case none => simp at h
  rcases h5 : coerceScore r.datasets_score with _ | s5 <;> rw [h5] at h
  case none => simp at h
  rcases h6 : coerceScore r.average_h_index with _ | avg <;> rw [h6] at h
  case none => simp at h
  simp only [Except.ok.injEq] at h
  exact ⟨axs, cxs, hxs, s1, s2, s3, s4, s5, avg, rfl, rfl, rfl, rfl, rfl, rfl, rfl, rfl, rfl, h.symm⟩

/-- The record the static-build formatter produces for the all-NULL row. -/
def row0BuilderVal : PyVal :=
  PyVal.dict (builder_paper_dict row0 PyList.nil PyList.nil PyList.nil
    (PyVal.float 0 0) (PyVal.float 0 0) (PyVal.float 0 0) (PyVal.float 0 0)
    (PyVal.float 0 0) (PyVal.float 0 0))

/-- On the all-NULL row the static-build formatter succeeds with every
documented default. -/
theorem builder_format_row0 :
    builder_format_paper_data row0 = Except.ok row0BuilderVal := rfl

/-- Ceiling division: `(a + b - 1) // b` equals the rational ceiling of
`a / b` for positive `b`. -/
theorem ediv_ceil_eq (a b : Int) (hb : 0 < b) :
    (a + b - 1) / b = ⌈(a : ℚ) / (b : ℚ)⌉ := by
  symm
  rw [Int.ceil_eq_iff]
  have hq := Int.ediv_add_emod (a + b - 1) b
  have hr1 := Int.emod_nonneg (a + b - 1) (ne_of_gt hb)
  have hr2 := Int.emod_lt_of_pos (a + b - 1) hb
  have hbq : (0 : ℚ) < (b : ℚ) := by exact_mod_cast hb
  constructor
  · rw [lt_div_iff hbq]
    have hg : ((a + b - 1) / b - 1) * b < a := by linarith
    exact_mod_cast hg
  · rw [div_le_iff hbq]
    have hg : a ≤ ((a + b - 1) / b) * b := by linarith
    exact_mod_cast hg

/-- Claim C10: `safe_json_escape` is the identity function on every value:
`None` maps to `None`, non-strings are returned as-is, and strings come
back with no character replaced, every replacement in its body being
commented out, so the static-build formatter applies no character-level
escaping of its own. -/
theorem claim_C10 : ∀ v : PyVal, safe_json_escape v = v :=
  safe_json_escape_id

/-- Claim C8: `process_text_field` is exactly `convert_latex_to_mathjax`
composed after `escape_html_text`, and one application renders a literal
`<script>` outside math spans as `&lt;script&gt;`, rewrites `$\alpha$` to
`\(\alpha\)` and `$$E=mc^2$$` to `\[E=mc^2\]`, the math content unharmed by
the HTML-escaping of the adjacent literal `<` in the same field. -/
theorem claim_C8 :
    (∀ s, process_text_field s = convert_latex_to_mathjax (escape_html_text s)) ∧
    process_text_field (toL "<script> $\\alpha$ $$E=mc^2$$") =
      toL "&lt;script&gt; \\(\\alpha\\) \\[E=mc^2\\]" :=
  ⟨fun _ => rfl, by decide⟩

/-- Claim C7: date normalization is total and behaves as specified: a
stored string whose `Z`-to-`+00:00` rewrite parses as ISO-8601 is formatted
as `YYYY-MM-DD`; on parse failure the first `YYYY-MM-DD` substring is
extracted; failing that too, the raw string is returned unchanged. In
particular `2025-07-15T00:00:00Z` normalizes to `2025-07-15` and `bad-date`
comes back unchanged. -/
theorem claim_C7 :
    (∀ s y m d, isoParse (pyReplace s (toL "Z") (toL "+00:00")) = some (y, m, d) →
      normDate (some s) = PyVal.str (fmtYMD y m d)) ∧
    (∀ s t, isoParse (pyReplace s (toL "Z") (toL "+00:00")) = Option.none →
      firstYMD s = some t → normDate (some s) = PyVal.str t) ∧
    (∀ s, isoParse (pyReplace s (toL "Z") (toL "+00:00")) = Option.none →
      firstYMD s = Option.none → normDate (some s) = PyVal.str s) ∧
    normDate (some (toL "2025-07-15T00:00:00Z")) = PyVal.str (toL "2025-07-15") ∧
    normDate (some (toL "bad-date")) = PyVal.str (toL "bad-date") := by
  refine ⟨?_, ?_, ?_, by decide, by decide⟩
  · intro s y m d h
    by_cases hs : s = []
    · subst hs
      rw [show isoParse (pyReplace [] (toL "Z") (toL "+00:00")) = Option.none
        by decide] at h
      exact Option.noConfusion h
    · simp only [normDate, if_neg hs, normDateStr, h]
  · intro s t hiso hfind
    by_cases hs : s = []
    · subst hs
      rw [show firstYMD [] = Option.none from rfl] at hfind
      exact Option.noConfusion hfind
    · simp only [normDate, if_neg hs, normDateStr, hiso, hfind]
  · intro s hiso hfind
    by_cases hs : s = []
    · subst hs; rfl
    · simp only [normDate, if_neg hs, normDateStr, hiso, hfind]

/-- Witness for C7: the ISO branch at the documented input. -/
theorem claim_C7_witness :
    normDate (some (toL "2025-07-15T00:00:00Z")) = PyVal.str (fmtYMD 2025 7 15) :=
  claim_C7.1 (toL "2025-07-15T00:00:00Z") 2025 7 15 (by decide)

/-- Counterexample for C6: a stored value of `null` is valid JSON, decodes
without error to `None`, and is returned as-is — the parsed field is then
`null`, not a sequence. -/
theorem claim_C6_cex :
    parse_json_field (DbVal.text (toL "null")) = PyVal.none := by decide

/-- Claim C6 (amended): `parse_json_field` never raises; NULL, the empty
string and any string JSON decoding rejects give the empty sequence, and a
string JSON decoding accepts gives the decoded value as-is — which is a
sequence only when the stored JSON was one (counterexample: stored `null`
yields `None`). -/
theorem claim_C6 :
    parse_json_field DbVal.null = PyVal.list PyList.nil ∧
    parse_json_field (DbVal.text []) = PyVal.list PyList.nil ∧
    (∀ s, jsonLoads s = Option.none →
      parse_json_field (DbVal.text s) = PyVal.list PyList.nil) ∧
    (∀ s v, jsonLoads s = some v → parse_json_field (DbVal.text s) = v) := by
  refine ⟨rfl, rfl, ?_, ?_⟩
  · intro s h
    by_cases hs : s = []
    · simp only [parse_json_field, if_pos hs]
    · simp only [parse_json_field, if_neg hs, h]
  · intro s v h
    by_cases hs : s = []
    · subst hs
      rw [show jsonLoads ([] : List Char) = Option.none by decide] at h
      exact Option.noConfusion h
    · simp only [parse_json_field, if_neg hs, h]

/-- Witness for C6: a well-formed stored array decodes to itself. -/
theorem claim_C6_witness :
    parse_json_field (DbVal.text (toL "[\"a\"]")) =
      PyVal.list (PyList.cons (PyVal.str ['a']) PyList.nil) :=
  claim_C6.2.2.2 (toL "[\"a\"]") _ (by decide)

/-- Counterexample for C2: a template without the data placeholder is
returned unchanged — `generate_static_page` is total, nothing raises, and
the missing placeholder is silently ignored rather than a build error. -/
theorem claim_C2_cex :
    generate_static_page (toL "x") (PyVal.dict PyDict.nil) (toL "hello") =
      toL "hello" := by decide

/-- Claim C2 (amended): `generate_static_page` never signals a missing
placeholder: when `<!--DATA_HERE-->` does not occur in the
title-substituted template, the output is that template unchanged
(`str.replace` of an absent pattern is the identity), with no error raised
and therefore the page written without its payload. -/
theorem claim_C2 (date : List Char) (paper_data : PyVal)
    (template_content : List Char)
    (h : occurs (toL "<!--DATA_HERE-->")
      (pyReplace (pyReplace (pyReplace template_content
        (toL "PLACEHOLDER_TITLE") (format_date_for_title date))
        (toL "PLACEHOLDER_MOBILE_TITLE")
        (toL "Papers Published on " ++ format_date_for_title date))
        (toL "PLACEHOLDER_DESKTOP_TITLE")
        (toL "Papers Published on " ++ format_date_for_title date)) = false) :
    generate_static_page date paper_data template_content =
      pyReplace (pyReplace (pyReplace template_content
        (toL "PLACEHOLDER_TITLE") (format_date_for_title date))
        (toL "PLACEHOLDER_MOBILE_TITLE")
        (toL "Papers Published on " ++ format_date_for_title date))
        (toL "PLACEHOLDER_DESKTOP_TITLE")
        (toL "Papers Published on " ++ format_date_for_title date) := by
  unfold generate_static_page
  exact pyReplace_of_not_occurs _ _ _ h

/-- Witness for C2: a template carrying only the title placeholder comes
back with the title substituted and no payload injected. -/
theorem claim_C2_witness :
    generate_static_page (toL "x") (PyVal.dict PyDict.nil)
      (toL "A PLACEHOLDER_TITLE B") = toL "A x B" :=
  (claim_C2 (toL "x") (PyVal.dict PyDict.nil) (toL "A PLACEHOLDER_TITLE B")
    (by decide)).trans (by decide)

/-- Counterexample for C1: a title holding a raw `<` next to literal `$`
delimiters is emitted verbatim by both output paths, and the
TextSafetyPipeline would have changed it — so the emitted field was never
processed and contains raw HTML metacharacters alongside unescaped LaTeX
delimiters. -/
theorem claim_C1_cex :
    pyGet (app_format_paper_data rowT) (toL "title") =
      some (PyVal.str (toL "<b>$x$")) ∧
    builderGet rowT (toL "title") = some (PyVal.str (toL "<b>$x$")) ∧
    process_text_field (toL "<b>$x$") ≠ toL "<b>$x$" ∧
    '<' ∈ toL "<b>$x$" ∧ '$' ∈ toL "<b>$x$" :=
  ⟨by decide, by decide, by decide, by decide, by decide⟩

/-- Claim C1 (amended): neither output path runs any text field through the
TextSafetyPipeline. The live API formatter emits `title`, `abstract` and
`summary` exactly as stored, and the static-build formatter, whenever it
succeeds, emits them exactly as stored too, its only "escaping" being the
identity `safe_json_escape`. -/
theorem claim_C1 : ∀ r : Row,
    pyGet (app_format_paper_data r) (toL "title") = some (dbToPy r.title) ∧
    pyGet (app_format_paper_data r) (toL "abstract") = some (dbToPy r.abstract) ∧
    pyGet (app_format_paper_data r) (toL "summary") = some (dbToPy r.summary) ∧
    (builder_format_paper_data r = Except.error () ∨
      (builderGet r (toL "title") = some (dbToPy r.title) ∧
       builderGet r (toL "abstract") = some (dbToPy r.abstract) ∧
       builderGet r (toL "summary") = some (dbToPy r.summary))) := by
  intro r
  refine ⟨rfl, rfl, rfl, ?_⟩
  rcases hE : builder_format_paper_data r with e | v
  · cases e
    exact Or.inl rfl
  · right
    obtain ⟨axs, cxs, hxs, s1, s2, s3, s4, s5, avg, -, -, -, -, -, -, -, -, -, hv⟩ :=
      builder_format_ok r v hE
    subst hv
    unfold builderGet
    rw [hE]
    refine ⟨?_, ?_, ?_⟩
    · show some (safe_json_escape (dbToPy r.title)) = some (dbToPy r.title)
      rw [safe_json_escape_id]
    · show some (safe_json_escape (dbToPy r.abstract)) = some (dbToPy r.abstract)
      rw [safe_json_escape_id]
    · show some (safe_json_escape (dbToPy r.summary)) = some (dbToPy r.summary)
      rw [safe_json_escape_id]

/-- Counterexample for C4: on the live path a NULL `rlhf_score` is emitted
as `null`, not as the documented `0.0` default. -/
theorem claim_C4_cex :
    row0.rlhf_score = DbVal.null ∧
    pyGet (app_format_paper_data row0) (toL "rlhf_score") = some PyVal.none :=
  ⟨rfl, by decide⟩

/-- Claim C4 (amended): every emitted record carries all 43 schema keys on
both paths, and the documented NULL defaults (`0.0` float scores, `0`
integer counts, empty sequences for the JSON list fields) hold on the
static-build path only; the live path passes NULL through as `null`
(counterexample). -/
theorem claim_C4 :
    (∀ r : Row, pyKeys (app_format_paper_data r) = schemaKeys) ∧
    (∀ (r : Row) (v : PyVal), builder_format_paper_data r = Except.ok v →
      pyKeys v = schemaKeys) ∧
    (∀ (r : Row) (v : PyVal), builder_format_paper_data r = Except.ok v →
      (r.rlhf_score = DbVal.null →
        pyGet v (toL "rlhf_score") = some (PyVal.float 0 0)) ∧
      (r.weak_supervision_score = DbVal.null →
        pyGet v (toL "weak_supervision_score") = some (PyVal.float 0 0)) ∧
      (r.diffusion_reasoning_score = DbVal.null →
        pyGet v (toL "diffusion_reasoning_score") = some (PyVal.float 0 0)) ∧
      (r.distributed_training_score = DbVal.null →
        pyGet v (toL "distributed_training_score") = some (PyVal.float 0 0)) ∧
      (r.datasets_score = DbVal.null →
        pyGet v (toL "datasets_score") = some (PyVal.float 0 0)) ∧
      (r.average_h_index = DbVal.null →
        pyGet v (toL "average_h_index") = some (PyVal.float 0 0)) ∧
      (r.total_authors = DbVal.null →
        pyGet v (toL "total_authors") = some (PyVal.int 0)) ∧
      (r.authors_found = DbVal.null →
        pyGet v (toL "authors_found") = some (PyVal.int 0)) ∧
      (r.highest_h_index = DbVal.null →
        pyGet v (toL "highest_h_index") = some (PyVal.int 0)) ∧
      (r.notable_authors_count = DbVal.null →
        pyGet v (toL "notable_authors_count") = some (PyVal.int 0)) ∧
      (r.authors = DbVal.null →
        pyGet v (toL "authors") = some (PyVal.list PyList.nil)) ∧
      (r.categories = DbVal.null →
        pyGet v (toL "categories") = some (PyVal.list PyList.nil)) ∧
      (r.author_h_indexes = DbVal.null →
        pyGet v (toL "author_h_indexes") = some (PyVal.list PyList.nil))) := by
  refine ⟨fun r => rfl, ?_, ?_⟩
  · intro r v hE
    obtain ⟨axs, cxs, hxs, s1, s2, s3, s4, s5, avg, -, -, -, -, -, -, -, -, -, hv⟩ :=
      builder_format_ok r v hE
    subst hv
    rfl
  · intro r v hE
    obtain ⟨axs, cxs, hxs, s1, s2, s3, s4, s5, avg, hA, hC, hH, h1, h2, h3, h4, h5, h6, hv⟩ :=
      builder_format_ok r v hE
    subst hv
    refine ⟨?_, ?_, ?_, ?_, ?_, ?_, ?_, ?_, ?_, ?_, ?_, ?_, ?_⟩
    · intro hnull; rw [hnull] at h1
      obtain rfl : s1 = PyVal.float 0 0 := by simpa [coerceScore] using h1.symm
      rfl
    · intro hnull; rw [hnull] at h2
      obtain rfl : s2 = PyVal.float 0 0 := by simpa [coerceScore] using h2.symm
      rfl
    · intro hnull; rw [hnull] at h3
      obtain rfl : s3 = PyVal.float 0 0 := by simpa [coerceScore] using h3.symm
      rfl
    · intro hnull; rw [hnull] at h4
      obtain rfl : s4 = PyVal.float 0 0 := by simpa [coerceScore] using h4.symm
      rfl
    · intro hnull; rw [hnull] at h5
      obtain rfl : s5 = PyVal.float 0 0 := by simpa [coerceScore] using h5.symm
      rfl
    · intro hnull; rw [hnull] at h6
      obtain rfl : avg = PyVal.float 0 0 := by simpa [coerceScore] using h6.symm
      rfl
    · intro hnull
      show some (defaultZero r.total_authors) = some (PyVal.int 0)
      rw [hnull]
      rfl
    · intro hnull
      show some (defaultZero r.authors_found) = some (PyVal.int 0)
      rw [hnull]
      rfl
    · intro hnull
      show some (defaultZero r.highest_h_index) = some (PyVal.int 0)
      rw [hnull]
      rfl
    · intro hnull
      show some (defaultZero r.notable_authors_count) = some (PyVal.int 0)
      rw [hnull]
      rfl
    · intro hnull; rw [hnull] at hA
      obtain rfl : axs = PyList.nil := by
        simpa [parse_json_field, pyIter] using hA.symm
      rfl
    · intro hnull; rw [hnull] at hC
      obtain rfl : cxs = PyList.nil := by
        simpa [parse_json_field, pyIter] using hC.symm
      rfl
    · intro hnull; rw [hnull] at hH
      obtain rfl : hxs = PyList.nil := by
        simpa [parse_json_field, pyIter] using hH.symm
      rfl

/-- Witness for C4: the all-NULL row formats successfully on the build path
with the full key schema and the `0.0` score default. -/
theorem claim_C4_witness :
    pyKeys row0BuilderVal = schemaKeys ∧
    pyGet row0BuilderVal (toL "rlhf_score") = some (PyVal.float 0 0) :=
  ⟨claim_C4.2.1 row0 row0BuilderVal rfl,
   (claim_C4.2.2 row0 row0BuilderVal rfl).1 rfl⟩

/-- A fully-populated numeric row: REAL scores, INTEGER counts. -/
def rowC3 : Row :=
  Row.mk DbVal.null DbVal.null DbVal.null DbVal.null DbVal.null Option.none
    DbVal.null DbVal.null DbVal.null DbVal.null DbVal.null
    (DbVal.real 35 1) (DbVal.real 35 1) (DbVal.real 35 1) (DbVal.real 35 1)
    (DbVal.real 35 1) DbVal.null DbVal.null
    DbVal.null DbVal.null DbVal.null DbVal.null DbVal.null DbVal.null
    DbVal.null DbVal.null DbVal.null DbVal.null DbVal.null DbVal.null
    DbVal.null DbVal.null DbVal.null DbVal.null DbVal.null DbVal.null
    DbVal.null (DbVal.int 3) (DbVal.int 3) (DbVal.int 3) (DbVal.real 21 1)
    (DbVal.int 3) DbVal.null

/-- Counterexample for C3: the all-NULL row formats differently on the two
paths — the live record holds `null` for `rlhf_score` where the build
record holds `0.0`, so the records are not equal field for field. -/
theorem claim_C3_cex :
    pyGet (app_format_paper_data row0) (toL "rlhf_score") = some PyVal.none ∧
    builderGet row0 (toL "rlhf_score") = some (PyVal.float 0 0) :=
  ⟨by decide, by decide⟩

/-- Claim C3 (amended): the two formatters agree only on rows with no
NULL numeric column and benign JSON fields: when the five category scores
and the average are REAL, the four counts are non-NULL, the three JSON
fields parse to lists, and the h-index list is invariant under the build
path's three-key rebuild, the static-build record equals the live record.
On other rows they diverge (counterexample). -/
theorem claim_C3 (r : Row) (axs cxs hxs : PyList)
    (ha : parse_json_field r.authors = PyVal.list axs)
    (hc : parse_json_field r.categories = PyVal.list cxs)
    (hh : parse_json_field r.author_h_indexes = PyVal.list hxs)
    (hrb : rebuildAhi hxs = hxs)
    (m1 : Int) (e1 : Nat) (h1 : r.rlhf_score = DbVal.real m1 e1)
    (m2 : Int) (e2 : Nat) (h2 : r.weak_supervision_score = DbVal.real m2 e2)
    (m3 : Int) (e3 : Nat) (h3 : r.diffusion_reasoning_score = DbVal.real m3 e3)
    (m4 : Int) (e4 : Nat) (h4 : r.distributed_training_score = DbVal.real m4 e4)
    (m5 : Int) (e5 : Nat) (h5 : r.datasets_score = DbVal.real m5 e5)
    (m6 : Int) (e6 : Nat) (h6 : r.average_h_index = DbVal.real m6 e6)
    (hta : r.total_authors ≠ DbVal.null)
    (haf : r.authors_found ≠ DbVal.null)
    (hhh : r.highest_h_index ≠ DbVal.null)
    (hnc : r.notable_authors_count ≠ DbVal.null) :
    builder_format_paper_data r = Except.ok (app_format_paper_data r) := by
  rw [builder_format_paper_data, ha, hc, hh, h1, h2, h3, h4, h5, h6]
  simp only [pyIter, coerceScore]
  rw [map_safe_json_escape, map_safe_json_escape, hrb]
  rw [app_format_paper_data, app_paper_dict, builder_paper_dict]
  simp only [safe_json_escape_id, ha, hc, hh, h1, h2, h3, h4, h5, h6, dbToPy,
    defaultZero_ne_null _ hta, defaultZero_ne_null _ haf,
    defaultZero_ne_null _ hhh, defaultZero_ne_null _ hnc]

/-- Witness for C3: a REAL-scored, fully-counted row with NULL JSON fields
(which parse to empty lists) formats identically on both paths. -/
theorem claim_C3_witness :
    builder_format_paper_data rowC3 = Except.ok (app_format_paper_data rowC3) :=
  claim_C3 rowC3 PyList.nil PyList.nil PyList.nil rfl rfl rfl rfl
    35 1 rfl 35 1 rfl 35 1 rfl 35 1 rfl 35 1 rfl 21 1 rfl
    (by decide) (by decide) (by decide) (by decide)

/-- Counterexample for C5: with no rows for the date, a request for page 2
(limit 10) is answered with a 200 envelope whose `has_prev` is `false` even
though `page > 1`, and is not rejected although `page` exceeds the zero
`total_pages` — the `total_papers == 0` early return bypasses both
guarantees. -/
theorem claim_C5_cex :
    get_papers ([] : List Row) 2 10 =
      PagResult.okR ⟨[], 2, 10, 0, 0, false, false⟩ ∧ (2 : Int) > 1 :=
  ⟨by decide, by decide⟩

/-- Claim C5 (amended): for a date with at least one row and valid
parameters, `total_pages` is the ceiling of `total_papers / limit`,
requests beyond it are rejected as out-of-bounds, and in-range requests get
`has_next = page < total_pages`, `has_prev = page > 1`; in particular 25
rows with limit 10 give 3 pages, page 3 has `has_next = false` and
`has_prev = true`, and page 4 is rejected. When the date has no rows the
envelope instead hardcodes `has_prev = false` and rejects nothing
(counterexample). -/
theorem claim_C5 (rows : List Row) (page limit : Int) (hr : rows ≠ [])
    (hp : 1 ≤ page) (hl1 : 1 ≤ limit) (hl2 : limit ≤ 100) :
    (((rows.length : Int) + limit - 1) / limit =
      ⌈((rows.length : Int) : ℚ) / (limit : ℚ)⌉) ∧
    (page > ((rows.length : Int) + limit - 1) / limit →
      get_papers rows page limit =
        PagResult.err (oobMsg page (((rows.length : Int) + limit - 1) / limit))) ∧
    (page ≤ ((rows.length : Int) + limit - 1) / limit →
      get_papers rows page limit = PagResult.okR
        ⟨((rows.drop ((page - 1) * limit).toNat).take limit.toNat).map
            app_format_paper_data,
         page, limit, (rows.length : Int),
         ((rows.length : Int) + limit - 1) / limit,
         decide (page < ((rows.length : Int) + limit - 1) / limit),
         decide (page > 1)⟩) ∧
    get_papers rows25 3 10 = PagResult.okR
      ⟨List.replicate 5 (app_format_paper_data row0), 3, 10, 25, 3, false, true⟩ ∧
    get_papers rows25 4 10 =
      PagResult.err (toL "Page 4 is out of bounds. Total pages: 3") := by
  have htpos : 0 < rows.length := List.length_pos.mpr hr
  refine ⟨ediv_ceil_eq _ _ (by omega), ?_, ?_, by decide, by decide⟩
  · intro hgt
    rw [get_papers]
    rw [if_neg (by omega), if_neg (by omega)]
    simp only []
    rw [if_neg (by omega : ¬ ((rows.length : Int) = 0)), if_pos hgt]
  · intro hle
    rw [get_papers]
    rw [if_neg (by omega), if_neg (by omega)]
    simp only []
    rw [if_neg (by omega : ¬ ((rows.length : Int) = 0)), if_neg (not_lt.mpr hle)]

/-- Witness for C5: page 1 of the 25-row date at limit 10. -/
theorem claim_C5_witness :
    get_papers rows25 1 10 = PagResult.okR
      ⟨List.replicate 10 (app_format_paper_data row0), 1, 10, 25, 3, true, false⟩ := by
  have h := (claim_C5 rows25 1 10 (by decide) (by decide) (by decide)
    (by decide)).2.2.1 (by decide)
  exact h.trans (by decide)

/-- A payload with an embedded `</script>` and an unbalanced `$`. -/
def scriptPayload : PyVal :=
  PyVal.dict (PyDict.cons (toL "t") (PyVal.str (toL "</script> $x")) PyDict.nil)

/-- Counterexample for C9: a field containing `<!--` (and likewise `-->`)
is replaced with `<\!--` (`--\>`), which is not a valid JSON string escape,
so the embedded payload no longer JSON-decodes at all — the round-trip
fails rather than returning the input mapping. -/
theorem claim_C9_cex :
    jsonLoads (safe_json_dumps (PyVal.dict
      (PyDict.cons (toL "a") (PyVal.str (toL "<!--")) PyDict.nil))) =
      Option.none ∧
    jsonLoads (safe_json_dumps (PyVal.dict
      (PyDict.cons (toL "b") (PyVal.str (toL "-->")) PyDict.nil))) =
      Option.none :=
  ⟨by decide, by decide⟩

/-- Claim C9 (amended): the round-trip holds whenever the serialized JSON
contains none of the three replaced patterns, and also for payloads whose
only dangerous content is `</script>` — that replacement inserts the valid
JSON escape `<\/script>`, as in the concrete record with an embedded
`</script>` and an unbalanced `$`. It fails for fields containing `<!--` or
`-->` (counterexample), whose replacements are not valid JSON. -/
theorem claim_C9 :
    (∀ p : PyVal, canonV p = true →
      occurs (toL "</script>") (dumps p 0) = false →
      occurs (toL "<!--") (dumps p 0) = false →
      occurs (toL "-->") (dumps p 0) = false →
      jsonLoads (safe_json_dumps p) = some p) ∧
    jsonLoads (safe_json_dumps scriptPayload) = some scriptPayload :=
  ⟨fun p hc h1 h2 h3 => safe_json_dumps_roundtrip p hc h1 h2 h3, by decide⟩

/-- Witness for C9: a plain one-field record round-trips. -/
theorem claim_C9_witness :
    jsonLoads (safe_json_dumps (PyVal.dict
      (PyDict.cons (toL "a") (PyVal.int 1) PyDict.nil))) =
      some (PyVal.dict (PyDict.cons (toL "a") (PyVal.int 1) PyDict.nil)) :=
  claim_C9.1 (PyVal.dict (PyDict.cons (toL "a") (PyVal.int 1) PyDict.nil))
    (by decide) (by decide) (by decide) (by decide)
